import Mathlib

/-!
# Verification of the torium data plane

Shallow embedding of the torium URL-shortener core (workspace counter,
resolver + redirect handler, click enrichment, click-log writer,
aggregation job, usage reporting job, analytics range validation),
with theorems settling the specification claims.

External platform primitives (SHA-256 digests, URL host parsing) are
taken as function parameters; everything else is translated directly
from the TypeScript source.
-/

namespace Torium

/-! ## Workspace Counter (src/do/workspace-counter.ts) -/

/-- Serialized per-workspace counter state (`CounterState` in
`workspace-counter.ts`). -/
structure CounterState where
  free_month_key : String
  free_tracked_clicks : Nat
  pro_period_start : Option String
  pro_period_end : Option String
  pro_tracked_clicks : Nat
  deriving Repr, DecidableEq

/-- Fresh state as initialized by `ensureState` when storage is empty;
the observed current month key is a parameter. -/
def initCounterState (currentMonth : String) : CounterState :=
  { free_month_key := currentMonth
    free_tracked_clicks := 0
    pro_period_start := none
    pro_period_end := none
    pro_tracked_clicks := 0 }

/-- Model of `maybeResetFreeForNewMonth`: reset the free counter when the stored
month key differs from the observed current UTC month. -/
def maybeResetFreeForNewMonth (currentMonth : String) (s : CounterState) : CounterState :=
  if s.free_month_key ≠ currentMonth then
    { s with free_month_key := currentMonth, free_tracked_clicks := 0 }
  else s

/-- Model of `incrementFreeIfUnderCap`: month-reset check, then increment when
strictly under the cap. Returns the `incremented` flag and the post-state. -/
def incrementFreeIfUnderCap (currentMonth : String) (cap : Nat) (s : CounterState) :
    Bool × CounterState :=
  let s := maybeResetFreeForNewMonth currentMonth s
  if s.free_tracked_clicks ≥ cap then
    (false, s)
  else
    (true, { s with free_tracked_clicks := s.free_tracked_clicks + 1 })

/-- Model of `incrementPro`: unconditional increment of the pro counter. -/
def incrementPro (s : CounterState) : CounterState :=
  { s with pro_tracked_clicks := s.pro_tracked_clicks + 1 }

/-- Model of `setProPeriod`: overwrite the period and zero the pro counter exactly
when the `(start, end)` pair differs from the stored pair. -/
def setProPeriod (start stop : String) (s : CounterState) : CounterState :=
  if s.pro_period_start ≠ some start ∨ s.pro_period_end ≠ some stop then
    { s with pro_period_start := some start
             pro_period_end := some stop
             pro_tracked_clicks := 0 }
  else s

/-- Model of `getFreeUsage`: month-reset check, then read. Returns the reported
`(month_key, tracked_clicks)` together with the (possibly reset) state. -/
def getFreeUsage (currentMonth : String) (s : CounterState) :
    (String × Nat) × CounterState :=
  let s := maybeResetFreeForNewMonth currentMonth s
  ((s.free_month_key, s.free_tracked_clicks), s)

/-- Model of `getProUsage`: plain read, no implicit reset. -/
def getProUsage (s : CounterState) : Option String × Option String × Nat :=
  (s.pro_period_start, s.pro_period_end, s.pro_tracked_clicks)

/-- Post-state of one `incrementFreeIfUnderCap` call. -/
def incFreeStep (currentMonth : String) (cap : Nat) (s : CounterState) : CounterState :=
  (incrementFreeIfUnderCap currentMonth cap s).2

/-! ## String primitives

Executable counterparts of the JavaScript string operations used by the
source (`toLowerCase`, `includes`, lexicographic `<` on timestamps). -/

/-- JavaScript `String.prototype.toLowerCase` restricted to ASCII (the
token lists matched against are all ASCII). -/
def strToLower (s : String) : String := ⟨s.data.map Char.toLower⟩

/-- JavaScript `String.prototype.includes`: substring containment. -/
def strIncludes (s pat : String) : Bool :=
  s.data.tails.any (fun t => pat.data.isPrefixOf t)

/-- Lexicographic strict comparison on character lists; executable
counterpart of the `<` used by SQL `WHERE ts > ?` and by the JavaScript
`click.ts > maxTs` comparison on ISO timestamps. -/
def listLtb : List Char → List Char → Bool
  | _, [] => false
  | [], _ :: _ => true
  | a :: as, b :: bs => if a < b then true else if b < a then false else listLtb as bs

/-- String version of `listLtb`. -/
def strLtb (a b : String) : Bool := listLtb a.data b.data

/-! ## Resolver (src/lib/resolve.ts) and redirect handler (src/routes/redirect.ts) -/

/-- Domain status enumeration. -/
inductive DomainStatus where
  | pending
  | verified
  | failed
  deriving Repr, DecidableEq

/-- Link status enumeration. -/
inductive LinkStatus where
  | active
  | paused
  deriving Repr, DecidableEq

/-- Row of the `domains` table. -/
structure Domain where
  id : String
  hostname : String
  status : DomainStatus
  deriving Repr, DecidableEq

/-- Row of the `links` table. -/
structure Link where
  id : String
  workspace_id : String
  domain_id : String
  slug : String
  destination_url : String
  status : LinkStatus
  deriving Repr, DecidableEq

/-- The relational catalog the resolver queries. -/
structure Catalog where
  domains : List Domain
  links : List Link
  deriving Repr

/-- Model of `ResolveResult` from `resolve.ts`. -/
structure ResolveResult where
  workspace_id : String
  link_id : String
  domain_id : String
  slug : String
  destination_url : String
  deriving Repr, DecidableEq

/-- Model of `SELECT id FROM domains WHERE hostname = ? AND status = 'verified'`,
`.first` semantics: the first matching row, if any. -/
def findVerifiedDomain (db : Catalog) (hostname : String) : Option Domain :=
  db.domains.find? (fun d => d.hostname = hostname ∧ d.status = DomainStatus.verified)

/-- Model of `SELECT ... FROM links WHERE domain_id = ? AND slug = ?`, `.first` semantics. -/
def findLink (db : Catalog) (domainId slug : String) : Option Link :=
  db.links.find? (fun l => l.domain_id = domainId ∧ l.slug = slug)

/-- Model of `resolveLink`: normalize hostname and slug to lowercase, look up a
verified domain, look up the link, treat paused links as absent. -/
def resolveLink (db : Catalog) (hostname slug : String) : Option ResolveResult :=
  let normalizedHostname := strToLower hostname
  let normalizedSlug := strToLower slug
  match findVerifiedDomain db normalizedHostname with
  | none => none
  | some domain =>
    match findLink db domain.id normalizedSlug with
    | none => none
    | some link =>
      if link.status = LinkStatus.paused then none
      else some { workspace_id := link.workspace_id
                  link_id := link.id
                  domain_id := link.domain_id
                  slug := link.slug
                  destination_url := link.destination_url }

/-- Outcome of the synchronous resolve step as seen by the HTTP layer:
the catalog query either throws (propagating to the framework's global
`app.onError` handler) or completes with an optional resolution. -/
inductive ResolveOutcome where
  | thrown
  | completed (r : Option ResolveResult)
  deriving Repr, DecidableEq

/-- HTTP response emitted on the redirect path: status plus the
`Location` header, if any. -/
structure RedirectResponse where
  status : Nat
  location : Option String
  deriving Repr, DecidableEq

/-- Response of the redirect path as a function of the resolve outcome:
`redirect.get('/:slug')` answers 404 on `null`, 302 (with `Location` set
to the destination) on a resolution; an exception escapes the handler and
is answered by `app.onError` in `index.ts` with 500 `INTERNAL_ERROR`. -/
def redirectResponse (o : ResolveOutcome) : RedirectResponse :=
  match o with
  | ResolveOutcome.thrown => { status := 500, location := none }
  | ResolveOutcome.completed none => { status := 404, location := none }
  | ResolveOutcome.completed (some r) => { status := 302, location := some r.destination_url }

/-- End-to-end response on a request that reaches the resolver and whose
catalog queries succeed. -/
def redirectOnRequest (db : Catalog) (hostname slug : String) : RedirectResponse :=
  redirectResponse (ResolveOutcome.completed (resolveLink db hostname slug))

/-! ## Click helpers (src/lib/clicks.ts) -/

/-- The fixed crawler/scraper token list from `isBotSuspected`. -/
def botPatterns : List String :=
  ["googlebot", "bingbot", "slurp", "duckduckbot", "baiduspider", "yandex",
   "facebookexternalhit", "twitterbot", "linkedinbot", "whatsapp", "telegrambot",
   "discordbot", "slackbot", "applebot", "msnbot", "ahrefsbot", "semrushbot",
   "dotbot", "rogerbot", "embedly", "quora link preview", "showyoubot",
   "outbrain", "pinterest", "developers.google.com", "google-read-aloud",
   "mediapartners-google", "adsbot", "apis-google", "feedfetcher", "bot",
   "spider", "crawler", "scraper", "headless", "phantom", "selenium", "puppeteer"]

/-- Model of `isBotSuspected`: case-insensitive substring match of the user agent
against the fixed crawler list; absent or empty user agent is not a bot
(JavaScript `if (!userAgent) return false`). -/
def isBotSuspected (userAgent : Option String) : Bool :=
  match userAgent with
  | none => false
  | some s =>
    if s = "" then false
    else
      let ua := strToLower s
      botPatterns.any (fun pattern => strIncludes ua pattern)

/-- Device classes (`DeviceType` in the shared package). -/
inductive DeviceType where
  | mobile
  | tablet
  | desktop
  | unknown
  deriving Repr, DecidableEq

/-- Model of `deriveDeviceType`: tablet tokens, then mobile tokens, then desktop
OS tokens, else unknown. -/
def deriveDeviceType (userAgent : Option String) : DeviceType :=
  match userAgent with
  | none => DeviceType.unknown
  | some s =>
    if s = "" then DeviceType.unknown
    else
      let ua := strToLower s
      if strIncludes ua "ipad" ∨ strIncludes ua "tablet" ∨
         (strIncludes ua "android" ∧ ¬ strIncludes ua "mobile") then
        DeviceType.tablet
      else if strIncludes ua "mobile" ∨ strIncludes ua "iphone" ∨
              strIncludes ua "ipod" ∨ strIncludes ua "android" ∨
              strIncludes ua "blackberry" ∨ strIncludes ua "windows phone" ∨
              strIncludes ua "opera mini" ∨ strIncludes ua "opera mobi" then
        DeviceType.mobile
      else if strIncludes ua "windows" ∨ strIncludes ua "macintosh" ∨
              strIncludes ua "linux" ∨ strIncludes ua "cros" then
        DeviceType.desktop
      else DeviceType.unknown

/-- Model of the `unique_part` selection inside `generateClickId`: the CF-Ray header
when present and non-empty (JavaScript `cfRay || ''` plus the
`!uniquePart && userAgent` guard), else the first 16 hex characters of
SHA-256 of the user agent, else the empty string. `sha256Hex` stands for
the platform digest `crypto.subtle.digest('SHA-256', ·)` in hex. -/
def uniquePartOf (sha256Hex : String → String) (cfRay userAgent : Option String) : String :=
  let u := match cfRay with
    | some r => r
    | none => ""
  if u = "" then
    match userAgent with
    | some ua => if ua = "" then u else (sha256Hex ua).take 16
    | none => u
  else u

/-- Model of `generateClickId`: hex SHA-256 of
`link_id + "|" + ts_ms + "|" + unique_part`. -/
def generateClickId (sha256Hex : String → String) (linkId : String) (tsMs : Nat)
    (cfRay userAgent : Option String) : String :=
  sha256Hex (linkId ++ "|" ++ toString tsMs ++ "|" ++ uniquePartOf sha256Hex cfRay userAgent)

/-- Model of `hashIp`: hex SHA-256 of the raw client IP string. -/
def hashIp (sha256Hex : String → String) (ip : String) : String := sha256Hex ip

/-! ## Detached tracking task (src/routes/redirect.ts, `waitUntil` body) -/

/-- Workspace plan. -/
inductive Plan where
  | free
  | pro
  deriving Repr, DecidableEq

/-- Model of `FREE_MONTHLY_CAP` from `src/lib/constants.ts`. -/
def FREE_MONTHLY_CAP : Nat := 5000

/-- Queue message format (`ClickEvent` in the shared package). -/
structure ClickEvent where
  click_id : String
  ts : String
  workspace_id : String
  link_id : String
  domain : String
  slug : String
  destination_url : String
  referrer : Option String
  user_agent : Option String
  ip_hash : Option String
  country : Option String
  region : Option String
  city : Option String
  deriving Repr, DecidableEq

/-- Request metadata collected up front by the redirect handler before
spawning the detached task. -/
structure RequestMeta where
  hostname : String
  tsMs : Nat
  ts : String
  userAgent : Option String
  referrer : Option String
  cfRay : Option String
  country : Option String
  region : Option String
  city : Option String
  clientIp : Option String
  deriving Repr

/-- The enriched click event built by the detached task before enqueueing
(JavaScript `clientIp ? await hashIp(clientIp) : undefined`; an absent or
empty `clientIp` is falsy). -/
def buildClickEvent (sha256Hex : String → String) (r : ResolveResult)
    (m : RequestMeta) : ClickEvent :=
  { click_id := generateClickId sha256Hex r.link_id m.tsMs m.cfRay m.userAgent
    ts := m.ts
    workspace_id := r.workspace_id
    link_id := r.link_id
    domain := m.hostname
    slug := r.slug
    destination_url := r.destination_url
    referrer := m.referrer
    user_agent := m.userAgent
    ip_hash := match m.clientIp with
      | none => none
      | some ip => if ip = "" then none else some (hashIp sha256Hex ip)
    country := m.country
    region := m.region
    city := m.city }

/-- One run of the detached tracking task (the `waitUntil` closure):
bot check first, then the plan-dependent counter call, then the enqueue
decision. Returns the post-state of the workspace counter and the queue
message sent, if any. -/
def trackClick (sha256Hex : String → String) (currentMonth : String) (plan : Plan)
    (r : ResolveResult) (m : RequestMeta) (counter : CounterState) :
    CounterState × Option ClickEvent :=
  if isBotSuspected m.userAgent then
    (counter, none)
  else
    match plan with
    | Plan.free =>
      let (incremented, counter') := incrementFreeIfUnderCap currentMonth FREE_MONTHLY_CAP counter
      if incremented then (counter', some (buildClickEvent sha256Hex r m))
      else (counter', none)
    | Plan.pro =>
      (incrementPro counter, some (buildClickEvent sha256Hex r m))

/-! ## Click log writer (src/consumers/clicks.ts) -/

/-- Row of the append-only `raw_clicks` table as written by the queue
consumer. -/
structure RawClickRow where
  id : String
  ts : String
  workspace_id : String
  link_id : String
  domain : String
  slug : String
  destination_url : Option String
  referrer : Option String
  user_agent : Option String
  ip_hash : Option String
  country : Option String
  region : Option String
  city : Option String
  device_type : DeviceType
  is_bot_suspected : Nat
  deriving Repr, DecidableEq

/-- JavaScript `x || null` on an optional string field: empty strings
collapse to null. -/
def orNull (o : Option String) : Option String :=
  match o with
  | none => none
  | some s => if s = "" then none else some s

/-- The row built from a queue message in `handleClickBatch`, including
the re-derived device class and bot flag. -/
def toRawClickRow (event : ClickEvent) : RawClickRow :=
  { id := event.click_id
    ts := event.ts
    workspace_id := event.workspace_id
    link_id := event.link_id
    domain := event.domain
    slug := event.slug
    destination_url := if event.destination_url = "" then none else some event.destination_url
    referrer := orNull event.referrer
    user_agent := orNull event.user_agent
    ip_hash := orNull event.ip_hash
    country := orNull event.country
    region := orNull event.region
    city := orNull event.city
    device_type := deriveDeviceType event.user_agent
    is_bot_suspected := if isBotSuspected event.user_agent then 1 else 0 }

/-- Model of `INSERT ... ON CONFLICT (id) DO NOTHING`: append the row unless a row
with the same click-id already exists. -/
def insertRawClick (log : List RawClickRow) (row : RawClickRow) : List RawClickRow :=
  if log.any (fun x => x.id = row.id) then log else log ++ [row]

/-- Model of `handleClickBatch`: build one row per message and execute the inserts
of the batch in order. -/
def handleClickBatch (log : List RawClickRow) (batch : List ClickEvent) : List RawClickRow :=
  (batch.map toRawClickRow).foldl insertRawClick log

/-- Click-id column of the raw click log. -/
def logIds (log : List RawClickRow) : List String := log.map RawClickRow.id

/-! ## Aggregation job (src/jobs/aggregation.ts, `runAggregation`) -/

/-- Model of `BATCH_SIZE` from `aggregation.ts`. -/
def BATCH_SIZE : Nat := 1000

/-- Default high-water mark (`'1970-01-01T00:00:00.000Z'`). -/
def EPOCH_TS : String := "1970-01-01T00:00:00.000Z"

/-- The projection of a `raw_clicks` row read by the aggregation query
(interface `RawClick` in `aggregation.ts`). -/
structure AggClick where
  id : String
  ts : String
  workspace_id : String
  link_id : String
  referrer : Option String
  country : Option String
  device_type : Option String
  deriving Repr, DecidableEq

/-- JavaScript `x || d` on an optional string: null, undefined and the
empty string all fall back to the default. -/
def orDefault (o : Option String) (d : String) : String :=
  match o with
  | none => d
  | some s => if s = "" then d else s

/-- JavaScript `String.prototype.trim` (whitespace at both ends). -/
def strTrim (s : String) : String :=
  ⟨((s.data.dropWhile Char.isWhitespace).reverse.dropWhile Char.isWhitespace).reverse⟩

/-- Model of `normalizeReferrer`: empty/missing referrer is `"(direct)"`, otherwise
the URL hostname with one leading `www.` stripped, or — when URL parsing
throws — the first 100 characters verbatim. `parseURLHost` stands for the
platform's `new URL(·).hostname`, with `none` for a parse failure. -/
def normalizeReferrer (parseURLHost : String → Option String) (referrer : Option String) : String :=
  match referrer with
  | none => "(direct)"
  | some r =>
    if r = "" ∨ strTrim r = "" then "(direct)"
    else
      match parseURLHost r with
      | some host =>
        if "www.".data.isPrefixOf host.data then ⟨host.data.drop 4⟩ else host
      | none => r.take 100

/-- UTC date of a click: the first 10 characters of its ISO timestamp
(`click.ts.substring(0, 10)`). -/
def clickDate (c : AggClick) : String := c.ts.take 10

/-- Key of the workspace-day map (`${click.workspace_id}|${date}`). -/
def wsKey (c : AggClick) : String := c.workspace_id ++ "|" ++ clickDate c

/-- Key of the link-day map (`${click.link_id}|${date}`). -/
def linkKey (c : AggClick) : String := c.link_id ++ "|" ++ clickDate c

/-- Key of the workspace-day-referrer map. -/
def refKey (parseURLHost : String → Option String) (c : AggClick) : String :=
  c.workspace_id ++ "|" ++ clickDate c ++ "|" ++ normalizeReferrer parseURLHost c.referrer

/-- Key of the workspace-day-country map (`click.country || 'unknown'`). -/
def countryKey (c : AggClick) : String :=
  c.workspace_id ++ "|" ++ clickDate c ++ "|" ++ orDefault c.country "unknown"

/-- Key of the workspace-day-device map (`click.device_type || 'unknown'`). -/
def deviceKey (c : AggClick) : String :=
  c.workspace_id ++ "|" ++ clickDate c ++ "|" ++ orDefault c.device_type "unknown"

/-- JavaScript `key.split('|')` on the character list: the maximal
pipe-free segments, in order; an empty input yields one empty segment. -/
def splitPipeAux : List Char → List Char → List (List Char)
  | [], acc => [acc.reverse]
  | c :: rest, acc =>
    if c = '|' then acc.reverse :: splitPipeAux rest []
    else splitPipeAux rest (c :: acc)

/-- JavaScript `key.split('|')` (the upsert loops of `runAggregation`). -/
def splitPipe (s : String) : List String :=
  (splitPipeAux s.data []).map String.mk

/-- The two column values actually bound by a two-column upsert loop
(`const [workspaceId, date] = key.split('|')`): the first two split
segments, re-joined here into one row identifier. A component that itself
contains `|` is truncated at its first pipe, and any further segments are
dropped. -/
def rowKey2 (key : String) : String :=
  (splitPipe key).getD 0 "" ++ "|" ++ (splitPipe key).getD 1 ""

/-- The three column values actually bound by a three-column upsert loop
(`const [workspaceId, date, referrer] = key.split('|')`): the first three
split segments, re-joined into one row identifier. A referrer containing
`|` is thereby truncated at its first pipe. -/
def rowKey3 (key : String) : String :=
  (splitPipe key).getD 0 "" ++ "|" ++ (splitPipe key).getD 1 ""
    ++ "|" ++ (splitPipe key).getD 2 ""

/-- The `rollup_daily_workspace` row a click's count is written to:
its map key re-split and re-bound by the upsert loop. -/
def wsRow (c : AggClick) : String := rowKey2 (wsKey c)

/-- The `rollup_daily_link` row a click's count is written to. -/
def linkRow (c : AggClick) : String := rowKey2 (linkKey c)

/-- The `rollup_referrer_daily` row a click's count is written to
(`key.split('|')` truncates a pipe-containing normalized referrer). -/
def refRow (parseURLHost : String → Option String) (c : AggClick) : String :=
  rowKey3 (refKey parseURLHost c)

/-- The `rollup_country_daily` row a click's count is written to. -/
def countryRow (c : AggClick) : String := rowKey3 (countryKey c)

/-- The `rollup_device_daily` row a click's count is written to. -/
def deviceRow (c : AggClick) : String := rowKey3 (deviceKey c)

/-- The in-memory grouping maps of one batch (`Map.set(key, get+1)`),
as a total count function (absent key ↦ 0). -/
def tally (key : AggClick → String) (batch : List AggClick) : String → Nat :=
  batch.foldl (fun m c => fun k => if k = key c then m k + 1 else m k) (fun _ => 0)

/-- Aggregation state: the five rollup tables (each keyed by the same
joined key string the source uses for its maps, value `total_clicks`;
an absent row reads as 0 under the additive upsert) plus the singleton
high-water mark. -/
structure AggState where
  rollup_daily_workspace : String → Nat
  rollup_daily_link : String → Nat
  rollup_referrer_daily : String → Nat
  rollup_country_daily : String → Nat
  rollup_device_daily : String → Nat
  last_processed_ts : String

/-- Initial aggregation state: empty rollups, epoch mark. -/
def initAggState : AggState :=
  { rollup_daily_workspace := fun _ => 0
    rollup_daily_link := fun _ => 0
    rollup_referrer_daily := fun _ => 0
    rollup_country_daily := fun _ => 0
    rollup_device_daily := fun _ => 0
    last_processed_ts := EPOCH_TS }

/-- Ascending-timestamp ordering used by `ORDER BY ts ASC`. -/
def tsLe (a b : AggClick) : Prop := strLtb b.ts a.ts = false

instance : DecidableRel tsLe := fun _ _ => instDecidableEqBool _ _

/-- The batch query: raw clicks with `ts > last_processed_ts`, ordered
ascending by `ts`, limited to `BATCH_SIZE`. -/
def fetchBatch (C : List AggClick) (hwm : String) : List AggClick :=
  ((C.filter (fun c => strLtb hwm c.ts)).insertionSort tsLe).take BATCH_SIZE

/-- The `maxTs` accumulation of `runAggregation`: start from the stored
mark and take every strictly larger `click.ts` seen in the batch. -/
def maxTsOf (hwm : String) (rows : List AggClick) : String :=
  rows.foldl (fun m c => if strLtb m c.ts then c.ts else m) hwm

/-- One invocation of `runAggregation`: fetch one batch; if empty return
unchanged, else add the batch's group counts onto the rollups and advance
the mark to the maximum ts seen in the batch — one atomic write. Each
upsert loop iterates the in-memory map and, per entry, re-binds the
columns via `key.split('|')` before an additive
`ON CONFLICT ... total_clicks = total_clicks + excluded.total_clicks`
write; summing the map counts of all keys that re-bind to the same row is
the same as counting the batch clicks by their written row directly, so
the increment of row `k` is `tally (·Row) rows k`. -/
def runAggregation (parseURLHost : String → Option String) (C : List AggClick)
    (s : AggState) : AggState :=
  let rows := fetchBatch C s.last_processed_ts
  if rows.isEmpty then s
  else
    let maxTs := maxTsOf s.last_processed_ts rows
    { rollup_daily_workspace := fun k => s.rollup_daily_workspace k + tally wsRow rows k
      rollup_daily_link := fun k => s.rollup_daily_link k + tally linkRow rows k
      rollup_referrer_daily := fun k => s.rollup_referrer_daily k + tally (refRow parseURLHost) rows k
      rollup_country_daily := fun k => s.rollup_country_daily k + tally countryRow rows k
      rollup_device_daily := fun k => s.rollup_device_daily k + tally deviceRow rows k
      last_processed_ts := maxTs }


/-- Aggregation invariant: each rollup row holds exactly the number of
raw clicks at or below the high-water mark whose bucket key matches. -/
def aggInv (parseURLHost : String → Option String) (C : List AggClick) (s : AggState) : Prop :=
  (∀ k, s.rollup_daily_workspace k
      = C.countP (fun c => decide (wsRow c = k) && !(strLtb s.last_processed_ts c.ts))) ∧
  (∀ k, s.rollup_daily_link k
      = C.countP (fun c => decide (linkRow c = k) && !(strLtb s.last_processed_ts c.ts))) ∧
  (∀ k, s.rollup_referrer_daily k
      = C.countP (fun c => decide (refRow parseURLHost c = k) && !(strLtb s.last_processed_ts c.ts))) ∧
  (∀ k, s.rollup_country_daily k
      = C.countP (fun c => decide (countryRow c = k) && !(strLtb s.last_processed_ts c.ts))) ∧
  (∀ k, s.rollup_device_daily k
      = C.countP (fun c => decide (deviceRow c = k) && !(strLtb s.last_processed_ts c.ts)))

/-- A raw click used by the C7 batching analysis: same workspace and
link for every index, timestamp increasing with the index. -/
def cexClick (i : Nat) : AggClick :=
  { id := toString i
    ts := "2026-01-01T" ++ toString (1000 + i)
    workspace_id := "w"
    link_id := "l"
    referrer := none
    country := none
    device_type := none }

def cexClicks : List AggClick := (List.range 1001).map cexClick

/-- A raw click whose referrer header is not a parseable URL and contains
a pipe: `new URL('http://a|b')` throws (`|` is a forbidden host code
point), so `normalizeReferrer` falls back to the raw string, and the
referrer upsert's `key.split('|')` re-binding truncates it at the pipe. -/
def pipeClick : AggClick :=
  { id := "p0"
    ts := "2026-01-01T00:00:00.000Z"
    workspace_id := "w"
    link_id := "l"
    referrer := some "http://a|b"
    country := none
    device_type := none }



/-! ## Usage reporting job (src/jobs/usage-reporting.ts) -/

/-- Model of `INCLUDED_CLICKS` (2,000,000). -/
def INCLUDED_CLICKS : Nat := 2000000

/-- Model of `OVERAGE_UNIT_CLICKS` (100,000). -/
def OVERAGE_UNIT_CLICKS : Nat := 100000

/-- Model of `OVERAGE_UNIT_CENTS` (100). -/
def OVERAGE_UNIT_CENTS : Nat := 100

/-- Billing-relevant columns of a `workspaces` row. -/
structure Workspace where
  id : String
  plan_type : String
  billing_status : String
  stripe_customer_id : Option String
  stripe_subscription_id : Option String
  current_period_start : Option String
  current_period_end : Option String
  deriving Repr, DecidableEq

/-- Row of `billing_usage_periods`. -/
structure BupRow where
  workspace_id : String
  period_start : String
  period_end : String
  total_clicks : Nat
  included_clicks : Nat
  overage_clicks : Nat
  overage_amount_cents : Nat
  has_invoice_item : Bool
  deriving Repr, DecidableEq

/-- External invoice item created through
`createOverageInvoiceItem` (amount in cents computed there). -/
structure InvoiceItem where
  customer : String
  subscription : String
  overage_clicks : Nat
  amount_cents : Nat
  period_start : String
  period_end : String
  deriving Repr, DecidableEq

/-- Model of `EXISTS` subquery of the reporter's workspace selection: a
`billing_usage_periods` row matching the workspace's current period (SQL
`=` on a NULL period column is never true). -/
def hasReportedRow (bup : List BupRow) (w : Workspace) : Bool :=
  bup.any (fun r =>
    r.workspace_id = w.id ∧
    some r.period_start = w.current_period_start ∧
    some r.period_end = w.current_period_end)

/-- The reporter's `WHERE` clause: active Pro workspace with Stripe ids,
a period that has ended (`current_period_end < now`, string comparison),
and no matching billing-usage-period row. -/
def billableNow (now : String) (bup : List BupRow) (w : Workspace) : Bool :=
  decide (w.plan_type = "pro") &&
  decide (w.billing_status = "active") &&
  decide (w.stripe_customer_id ≠ none) &&
  decide (w.stripe_subscription_id ≠ none) &&
  (match w.current_period_end with
   | none => false
   | some e => strLtb e now) &&
  !(hasReportedRow bup w)

/-- Model of `processWorkspaceUsage` for a workspace whose Stripe ids and period
bounds are present: read the live Pro counter, compute the overage and
its price, create an invoice item when the overage is positive, and
always build the billing-usage-period row. -/
def processWorkspaceUsage (proClicks : String → Nat) (w : Workspace)
    (cust subscr pstart pend : String) : BupRow × Option InvoiceItem :=
  let totalClicks := proClicks w.id
  let overageClicks := totalClicks - INCLUDED_CLICKS
  let overageUnits := (overageClicks + (OVERAGE_UNIT_CLICKS - 1)) / OVERAGE_UNIT_CLICKS
  let overageAmountCents := overageUnits * OVERAGE_UNIT_CENTS
  let invoice :=
    if overageClicks > 0 then
      some { customer := cust
             subscription := subscr
             overage_clicks := overageClicks
             amount_cents := overageAmountCents
             period_start := pstart.take 10
             period_end := pend.take 10 }
    else none
  ({ workspace_id := w.id
     period_start := pstart
     period_end := pend
     total_clicks := totalClicks
     included_clicks := INCLUDED_CLICKS
     overage_clicks := overageClicks
     overage_amount_cents := overageAmountCents
     has_invoice_item := overageClicks > 0 }, invoice)

/-- Per-workspace outcome inside the reporter loop: a workspace whose
selected row carries a NULL Stripe id or period bound throws inside
`processWorkspaceUsage`; the error is caught and the workspace skipped. -/
def reportOne (proClicks : String → Nat) (w : Workspace) :
    Option (BupRow × Option InvoiceItem) :=
  match w.stripe_customer_id, w.stripe_subscription_id,
        w.current_period_start, w.current_period_end with
  | some cust, some subscr, some pstart, some pend =>
    some (processWorkspaceUsage proClicks w cust subscr pstart pend)
  | _, _, _, _ => none

/-- Model of `runUsageReporting`: select the billable workspaces against the
current table, then process each in order, appending one
billing-usage-period row (and possibly one invoice item) per success. -/
def runUsageReporting (proClicks : String → Nat) (now : String)
    (ws : List Workspace) (bup : List BupRow) : List BupRow × List InvoiceItem :=
  let eligible := ws.filter (billableNow now bup)
  eligible.foldl
    (fun acc w =>
      match reportOne proClicks w with
      | none => acc
      | some (row, inv) => (acc.1 ++ [row], acc.2 ++ inv.toList))
    (bup, [])

/-- Billing-usage-period row contributed by one workspace. -/
def rowOf (proClicks : String → Nat) (w : Workspace) : Option BupRow :=
  (reportOne proClicks w).map Prod.fst

/-- Invoice item contributed by one workspace. -/
def invOf (proClicks : String → Nat) (w : Workspace) : Option InvoiceItem :=
  (reportOne proClicks w).bind Prod.snd

/-! ## Analytics range validation (src/routes/analytics.ts) -/

/-- Model of `MAX_RANGE_DAYS`: plan-based range ceiling in days. -/
def maxRangeDays (plan : Plan) : Nat :=
  match plan with
  | Plan.free => 30
  | Plan.pro => 24 * 30

/-- The `rangeDays` table: days for each valid token, `none` for `all`. -/
def rangeDays (token : String) : Option Nat :=
  if token = "7d" then some 7
  else if token = "30d" then some 30
  else if token = "90d" then some 90
  else none

/-- The valid range tokens. -/
def validRanges : List String := ["7d", "30d", "90d", "all"]

/-- Result record of `parseRange`: the computed start date (days are
counted as signed offsets from `now`, mirroring `setDate(getDate() - d)`)
or an error message. -/
structure ParseRangeResult where
  startDate : Option Int
  err : Option String
  deriving Repr, DecidableEq

/-- Model of `parseRange`: default the token to `7d`, reject unknown tokens,
reject a token whose day count exceeds the plan ceiling, clamp `all` to
`now - maxDays`, otherwise start at `now - days`. -/
def parseRange (range : Option String) (plan : Plan) (now : Int) : ParseRangeResult :=
  let rangeValue := match range with
    | none => "7d"
    | some r => r
  if rangeValue ∉ validRanges then
    { startDate := none, err := some "Invalid range" }
  else
    let maxDays := maxRangeDays plan
    let days := rangeDays rangeValue
    match days with
    | some d =>
      if d > maxDays then
        { startDate := none, err := some "Range exceeds your plan limit" }
      else
        { startDate := some (now - d), err := none }
    | none =>
      { startDate := some (now - maxDays), err := none }

/-- Observable outcome of one analytics endpoint: either the validation
error envelope (HTTP 400, no rollup query) or a rollup query with the
given start date. -/
inductive AnalyticsOutcome where
  | validationError
  | queried (startDate : Option Int)
  deriving Repr, DecidableEq

/-- HTTP status of an analytics outcome. -/
def analyticsStatus (o : AnalyticsOutcome) : Nat :=
  match o with
  | AnalyticsOutcome.validationError => 400
  | AnalyticsOutcome.queried _ => 200

/-- Shared guard of every analytics endpoint: run `parseRange`; answer
the `VALIDATION_ERROR` envelope on error, else query the rollups. -/
def analyticsGuard (range : Option String) (plan : Plan) (now : Int) : AnalyticsOutcome :=
  let res := parseRange range plan now
  match res.err with
  | some _ => AnalyticsOutcome.validationError
  | none => AnalyticsOutcome.queried res.startDate

/-- Model of `GET /api/v1/analytics/overview`. -/
def overviewOutcome (range : Option String) (plan : Plan) (now : Int) : AnalyticsOutcome :=
  analyticsGuard range plan now

/-- Model of `GET /api/v1/analytics/links`. -/
def linksOutcome (range : Option String) (plan : Plan) (now : Int) : AnalyticsOutcome :=
  analyticsGuard range plan now

/-- Model of `GET /api/v1/analytics/referrers`. -/
def referrersOutcome (range : Option String) (plan : Plan) (now : Int) : AnalyticsOutcome :=
  analyticsGuard range plan now

/-- Model of `GET /api/v1/analytics/countries`. -/
def countriesOutcome (range : Option String) (plan : Plan) (now : Int) : AnalyticsOutcome :=
  analyticsGuard range plan now

/-- Model of `GET /api/v1/analytics/devices`. -/
def devicesOutcome (range : Option String) (plan : Plan) (now : Int) : AnalyticsOutcome :=
  analyticsGuard range plan now

/-! ## Counter lemmas -/

theorem maybeReset_le_cap {currentMonth : String} {cap : Nat} {s : CounterState}
    (h : s.free_tracked_clicks ≤ cap) :
    (maybeResetFreeForNewMonth currentMonth s).free_tracked_clicks ≤ cap := by
  unfold maybeResetFreeForNewMonth
  split <;> simp [h]

theorem incFreeStep_le_cap {currentMonth : String} {cap : Nat} {s : CounterState}
    (h : s.free_tracked_clicks ≤ cap) :
    (incFreeStep currentMonth cap s).free_tracked_clicks ≤ cap := by
  unfold incFreeStep incrementFreeIfUnderCap
  set t := maybeResetFreeForNewMonth currentMonth s with ht
  have hle : t.free_tracked_clicks ≤ cap := maybeReset_le_cap h
  by_cases hc : t.free_tracked_clicks ≥ cap
  · simp [hc]
    exact hle
  · simp [hc]
    omega

theorem iterate_incFree_le_cap (currentMonth : String) (cap : Nat) (s : CounterState)
    (h : s.free_tracked_clicks ≤ cap) (n : Nat) :
    ((incFreeStep currentMonth cap)^[n] s).free_tracked_clicks ≤ cap := by
  induction n generalizing s with
  | zero => simpa using h
  | succ n ih =>
    rw [Function.iterate_succ_apply]
    exact ih _ (incFreeStep_le_cap h)

theorem incFreeStep_new_month {currentMonth : String} {cap : Nat} {s : CounterState}
    (hm : s.free_month_key ≠ currentMonth) (hcap : 1 ≤ cap) :
    (incFreeStep currentMonth cap s).free_tracked_clicks = 1 := by
  unfold incFreeStep incrementFreeIfUnderCap maybeResetFreeForNewMonth
  simp only [hm, if_pos, ne_eq, not_false_iff]
  have : ¬ ((0 : Nat) ≥ cap) := by omega
  simp [this]

/-! ## String order lemmas -/

theorem listLtb_iff : ∀ (l₁ l₂ : List Char), listLtb l₁ l₂ = true ↔ List.Lex (· < ·) l₁ l₂ := by
  intro l₁
  induction l₁ with
  | nil => intro l₂; cases l₂ <;> simp [listLtb]; exact List.Lex.nil
  | cons a as ih =>
    intro l₂
    cases l₂ with
    | nil => simp [listLtb]
    | cons b bs =>
      unfold listLtb
      by_cases hab : a < b
      · simp [hab]; exact List.Lex.rel hab
      · by_cases hba : b < a
        · simp [hab, hba]
          intro h
          cases h with
          | rel h' => exact absurd h' hab
          | cons h' => exact absurd rfl (ne_of_gt hba)
        · have hne : a = b := le_antisymm (not_lt.mp hba) (not_lt.mp hab)
          subst hne
          simp [hab, hba, ih bs]
          constructor
          · intro h; exact List.Lex.cons h
          · intro h
            cases h with
            | rel h' => exact absurd h' hab
            | cons h' => exact h'

/-- The comparison `strLtb` agrees with the linear order on `String`. -/
theorem strLtb_iff (a b : String) : strLtb a b = true ↔ a < b := by
  rw [strLtb, listLtb_iff, String.lt_iff_toList_lt]
  exact Iff.rfl

theorem strLtb_eq_false_iff (a b : String) : strLtb a b = false ↔ b ≤ a := by
  rw [← not_lt, ← strLtb_iff]
  simp


instance : IsTotal AggClick tsLe := by
  constructor
  intro a b
  rw [tsLe, tsLe, strLtb_eq_false_iff, strLtb_eq_false_iff]
  exact le_total _ _

instance : IsTrans AggClick tsLe := by
  constructor
  intro a b c hab hbc
  rw [tsLe, strLtb_eq_false_iff] at *
  exact le_trans hab hbc


/-! ## Lemmas on the analytics guard -/

theorem analyticsGuard_over_ceiling {range : String} {plan : Plan} {now : Int} {d : Nat}
    (hv : range ∈ validRanges) (hd : rangeDays range = some d)
    (hover : d > maxRangeDays plan) :
    analyticsGuard (some range) plan now = AnalyticsOutcome.validationError := by
  unfold analyticsGuard parseRange
  rw [if_neg (by simpa using hv), hd]
  simp [hover]

theorem analyticsGuard_all (plan : Plan) (now : Int) :
    analyticsGuard (some "all") plan now
      = AnalyticsOutcome.queried (some (now - maxRangeDays plan)) := by
  cases plan <;> rfl

/-! ## Claim theorems: counter -/

/-- C2 counterexample: the claim quantifies over every starting counter
state and every cap. (i) Starting in the observed month with
`free_tracked_clicks = 4` and `cap = 3`, one `IncrementFreeIfUnderCap`
call leaves the count at 4 > cap. (ii) With `cap = 0`, the first
increment after a month transition leaves the count at 0, not 1. -/
theorem claim_C2_counterexample :
    ((incFreeStep "2026-01" 3 ⟨"2026-01", 4, none, none, 0⟩).free_tracked_clicks = 4 ∧
      ¬ ((incFreeStep "2026-01" 3 ⟨"2026-01", 4, none, none, 0⟩).free_tracked_clicks ≤ 3)) ∧
    ((⟨"2026-01", 0, none, none, 0⟩ : CounterState).free_month_key ≠ "2026-02" ∧
      (incFreeStep "2026-02" 0 ⟨"2026-01", 0, none, none, 0⟩).free_tracked_clicks = 0) := by
  decide

/-- C2 (amended): for a positive cap and a starting state that is either
at most the cap or stored under a different month key, any positive
number of `IncrementFreeIfUnderCap(cap)` calls observed within a single
UTC month leaves `free_tracked_clicks ≤ cap`; and when the stored month
key differs from the observed month, the first increment resets the
counter so that it leaves `free_tracked_clicks = 1`. -/
theorem claim_C2_free_cap (currentMonth : String) (cap : Nat) (s : CounterState) (n : Nat)
    (hcap : 1 ≤ cap) (hn : 1 ≤ n)
    (h0 : s.free_tracked_clicks ≤ cap ∨ s.free_month_key ≠ currentMonth) :
    ((incFreeStep currentMonth cap)^[n] s).free_tracked_clicks ≤ cap ∧
    (s.free_month_key ≠ currentMonth →
      (incFreeStep currentMonth cap s).free_tracked_clicks = 1) := by
  constructor
  · rcases h0 with h0 | h0
    · exact iterate_incFree_le_cap currentMonth cap s h0 n
    · cases n with
      | zero => omega
      | succ m =>
        rw [Function.iterate_succ_apply]
        apply iterate_incFree_le_cap
        rw [incFreeStep_new_month h0 hcap]
        exact hcap
  · intro hm
    exact incFreeStep_new_month hm hcap

/-- C2 witness: concrete instantiation (cap 3, two calls, starting count 7
stored under the previous month). -/
theorem claim_C2_free_cap_witness :
    ((1 : Nat) ≤ 3 ∧ (1 : Nat) ≤ 2 ∧
      ((⟨"2026-01", 7, none, none, 0⟩ : CounterState).free_tracked_clicks ≤ 3 ∨
        (⟨"2026-01", 7, none, none, 0⟩ : CounterState).free_month_key ≠ "2026-02")) ∧
    (((incFreeStep "2026-02" 3)^[2] ⟨"2026-01", 7, none, none, 0⟩).free_tracked_clicks ≤ 3 ∧
      ((⟨"2026-01", 7, none, none, 0⟩ : CounterState).free_month_key ≠ "2026-02" →
        (incFreeStep "2026-02" 3 ⟨"2026-01", 7, none, none, 0⟩).free_tracked_clicks = 1)) :=
  ⟨⟨by decide, by decide, by decide⟩,
    claim_C2_free_cap "2026-02" 3 ⟨"2026-01", 7, none, none, 0⟩ 2
      (by decide) (by decide) (by decide)⟩

theorem iterate_incrementPro (k : Nat) (s : CounterState) :
    incrementPro^[k] s =
      { s with pro_tracked_clicks := s.pro_tracked_clicks + k } := by
  induction k generalizing s with
  | zero => simp
  | succ m ih =>
    rw [Function.iterate_succ_apply, ih]
    simp [incrementPro]
    omega

/-- C6: `SetProPeriod` resets the pro counter exactly when the pair
differs from the stored one. For any state `t`: a matching pair leaves
`t` unchanged, a differing pair overwrites the pair and zeroes the
counter. Consequently, starting from a state not already storing
`(a, b)`: `SetProPeriod(a,b); IncrementPro×k; SetProPeriod(a,b)` leaves
`pro_tracked_clicks = k`, while `SetProPeriod(a,b); IncrementPro×k;
SetProPeriod(a,c)` with `c ≠ b` leaves `pro_tracked_clicks = 0`. -/
theorem claim_C6_setProPeriod (a b c : String) (k : Nat) (s t : CounterState)
    (hdiff : (s.pro_period_start, s.pro_period_end) ≠ (some a, some b))
    (hcb : c ≠ b) :
    (t.pro_period_start = some a ∧ t.pro_period_end = some b → setProPeriod a b t = t) ∧
    (t.pro_period_start ≠ some a ∨ t.pro_period_end ≠ some b →
      setProPeriod a b t = { t with pro_period_start := some a
                                    pro_period_end := some b
                                    pro_tracked_clicks := 0 }) ∧
    (setProPeriod a b (incrementPro^[k] (setProPeriod a b s))).pro_tracked_clicks = k ∧
    (setProPeriod a c (incrementPro^[k] (setProPeriod a b s))).pro_tracked_clicks = 0 := by
  have hset : ∀ u : CounterState, (u.pro_period_start, u.pro_period_end) ≠ (some a, some b) →
      setProPeriod a b u = { u with pro_period_start := some a
                                    pro_period_end := some b
                                    pro_tracked_clicks := 0 } := by
    intro u hu
    unfold setProPeriod
    rw [if_pos]
    by_contra hc
    push_neg at hc
    exact hu (by rw [hc.1, hc.2])
  refine ⟨?_, ?_, ?_, ?_⟩
  · intro ⟨h1, h2⟩
    unfold setProPeriod
    rw [if_neg]
    push_neg
    exact ⟨h1, h2⟩
  · intro h
    apply hset
    intro hc
    rcases h with h | h
    · exact h (congrArg Prod.fst hc)
    · exact h (congrArg Prod.snd hc)
  · rw [hset s hdiff, iterate_incrementPro]
    unfold setProPeriod
    rw [if_neg (by push_neg; exact ⟨rfl, rfl⟩)]
    simp
  · rw [hset s hdiff, iterate_incrementPro]
    unfold setProPeriod
    rw [if_pos]
    right
    simp [hcb]
    intro hc
    exact hcb hc.symm

/-- C6 witness: concrete periods and `k = 2` from the fresh state. -/
theorem claim_C6_setProPeriod_witness :
    (((initCounterState "2026-01").pro_period_start,
        (initCounterState "2026-01").pro_period_end) ≠ (some "A", some "B") ∧
      ("C" : String) ≠ "B") ∧
    (((initCounterState "2026-01").pro_period_start = some "A" ∧
        (initCounterState "2026-01").pro_period_end = some "B" →
        setProPeriod "A" "B" (initCounterState "2026-01") = initCounterState "2026-01") ∧
      ((initCounterState "2026-01").pro_period_start ≠ some "A" ∨
        (initCounterState "2026-01").pro_period_end ≠ some "B" →
        setProPeriod "A" "B" (initCounterState "2026-01") =
          { initCounterState "2026-01" with pro_period_start := some "A"
                                            pro_period_end := some "B"
                                            pro_tracked_clicks := 0 }) ∧
      (setProPeriod "A" "B"
        (incrementPro^[2] (setProPeriod "A" "B" (initCounterState "2026-01")))).pro_tracked_clicks = 2 ∧
      (setProPeriod "A" "C"
        (incrementPro^[2] (setProPeriod "A" "B" (initCounterState "2026-01")))).pro_tracked_clicks = 0) :=
  ⟨⟨by decide, by decide⟩,
    claim_C6_setProPeriod "A" "B" "C" 2 (initCounterState "2026-01") (initCounterState "2026-01")
      (by decide) (by decide)⟩

/-! ## Claim theorems: analytics range validation -/

/-- C9: an authenticated analytics request whose valid range token maps
to more days than the caller's plan ceiling (Free = 30 days, Pro =
24 × 30 days) is answered by every one of the five analytics endpoints
with the `VALIDATION_ERROR` envelope (HTTP 400) and no rollup query. -/
theorem claim_C9_range_ceiling (range : String) (plan : Plan) (now : Int) (d : Nat)
    (hv : range ∈ validRanges) (hd : rangeDays range = some d)
    (hover : d > maxRangeDays plan) :
    overviewOutcome (some range) plan now = AnalyticsOutcome.validationError ∧
    linksOutcome (some range) plan now = AnalyticsOutcome.validationError ∧
    referrersOutcome (some range) plan now = AnalyticsOutcome.validationError ∧
    countriesOutcome (some range) plan now = AnalyticsOutcome.validationError ∧
    devicesOutcome (some range) plan now = AnalyticsOutcome.validationError ∧
    analyticsStatus (overviewOutcome (some range) plan now) = 400 := by
  have h := @analyticsGuard_over_ceiling range plan now d hv hd hover
  unfold overviewOutcome linksOutcome referrersOutcome countriesOutcome devicesOutcome
  rw [h]
  simp [analyticsStatus]

/-- C9 witness: `range=90d` on the Free plan. -/
theorem claim_C9_range_ceiling_witness :
    (("90d" : String) ∈ validRanges ∧ rangeDays "90d" = some 90 ∧
      90 > maxRangeDays Plan.free) ∧
    (overviewOutcome (some "90d") Plan.free 0 = AnalyticsOutcome.validationError ∧
      linksOutcome (some "90d") Plan.free 0 = AnalyticsOutcome.validationError ∧
      referrersOutcome (some "90d") Plan.free 0 = AnalyticsOutcome.validationError ∧
      countriesOutcome (some "90d") Plan.free 0 = AnalyticsOutcome.validationError ∧
      devicesOutcome (some "90d") Plan.free 0 = AnalyticsOutcome.validationError ∧
      analyticsStatus (overviewOutcome (some "90d") Plan.free 0) = 400) :=
  ⟨⟨by decide, by decide, by decide⟩,
    claim_C9_range_ceiling "90d" Plan.free 0 90 (by decide) (by decide) (by decide)⟩

/-- C10: `range=all` never fails range validation on any plan:
`parseRange` maps `all` to `now` minus the plan ceiling (30 days on Free,
720 days on Pro) and every endpoint proceeds to query — in particular on
the Free plan `all` succeeds, silently clamped to the last 30 days. -/
theorem claim_C10_all_clamped (plan : Plan) (now : Int) :
    parseRange (some "all") plan now
      = { startDate := some (now - maxRangeDays plan), err := none } ∧
    overviewOutcome (some "all") plan now
      = AnalyticsOutcome.queried (some (now - maxRangeDays plan)) ∧
    linksOutcome (some "all") plan now
      = AnalyticsOutcome.queried (some (now - maxRangeDays plan)) ∧
    referrersOutcome (some "all") plan now
      = AnalyticsOutcome.queried (some (now - maxRangeDays plan)) ∧
    countriesOutcome (some "all") plan now
      = AnalyticsOutcome.queried (some (now - maxRangeDays plan)) ∧
    devicesOutcome (some "all") plan now
      = AnalyticsOutcome.queried (some (now - maxRangeDays plan)) ∧
    maxRangeDays Plan.free = 30 ∧ maxRangeDays Plan.pro = 720 := by
  have h := analyticsGuard_all plan now
  unfold overviewOutcome linksOutcome referrersOutcome countriesOutcome devicesOutcome
  refine ⟨?_, h, h, h, h, h, rfl, rfl⟩
  cases plan <;> rfl

/-! ## Claim theorems: redirect path -/

/-- C1 counterexample: when the resolver throws (a catalog error), the
exception escapes the redirect handler and the global `app.onError`
handler answers 500 `INTERNAL_ERROR` — not 404, and not a member of
{302, 404}. -/
theorem claim_C1_counterexample :
    redirectResponse ResolveOutcome.thrown = { status := 500, location := none } ∧
    (redirectResponse ResolveOutcome.thrown).status ≠ 404 ∧
    (redirectResponse ResolveOutcome.thrown).status ≠ 302 := by
  decide

/-- C1 (amended): when the catalog queries complete, the redirect
endpoint answers 302 with `Location` set to the resolved destination on a
resolution, and 404 in every unresolved case — no verified domain for the
hostname, no link for `(domain, slug)`, or a paused link; only 302 and
404 arise from completed resolves. A resolver/catalog error, however, is
answered 500 by the global error handler, not 404. -/
theorem claim_C1_redirect_statuses (db : Catalog) (hostname slug : String)
    (r : ResolveResult) (d : Domain) (l : Link) :
    ((redirectOnRequest db hostname slug).status = 302 ∨
      (redirectOnRequest db hostname slug).status = 404) ∧
    (resolveLink db hostname slug = some r →
      redirectOnRequest db hostname slug = { status := 302, location := some r.destination_url }) ∧
    (resolveLink db hostname slug = none →
      redirectOnRequest db hostname slug = { status := 404, location := none }) ∧
    (findVerifiedDomain db (strToLower hostname) = none →
      resolveLink db hostname slug = none) ∧
    (findVerifiedDomain db (strToLower hostname) = some d →
      findLink db d.id (strToLower slug) = none →
      resolveLink db hostname slug = none) ∧
    (findVerifiedDomain db (strToLower hostname) = some d →
      findLink db d.id (strToLower slug) = some l →
      l.status = LinkStatus.paused →
      resolveLink db hostname slug = none) ∧
    redirectResponse ResolveOutcome.thrown = { status := 500, location := none } := by
  refine ⟨?_, ?_, ?_, ?_, ?_, ?_, rfl⟩
  · unfold redirectOnRequest redirectResponse
    cases resolveLink db hostname slug <;> simp
  · intro h
    unfold redirectOnRequest
    rw [h]
    rfl
  · intro h
    unfold redirectOnRequest
    rw [h]
    rfl
  · intro h
    simp only [resolveLink, h]
  · intro h1 h2
    simp only [resolveLink, h1, h2]
  · intro h1 h2 h3
    simp only [resolveLink, h1, h2, h3, if_pos]

/-- C1 witness: a one-domain, one-link catalog; its active link resolves
to a 302 and a missing slug to a 404. -/
theorem claim_C1_redirect_statuses_witness :
    ((redirectOnRequest
        ⟨[⟨"d1", "example.test", DomainStatus.verified⟩],
         [⟨"l1", "w1", "d1", "x", "https://dest.example/path", LinkStatus.active⟩]⟩
        "example.test" "x").status = 302 ∨
      (redirectOnRequest
        ⟨[⟨"d1", "example.test", DomainStatus.verified⟩],
         [⟨"l1", "w1", "d1", "x", "https://dest.example/path", LinkStatus.active⟩]⟩
        "example.test" "x").status = 404) ∧
    (resolveLink
        ⟨[⟨"d1", "example.test", DomainStatus.verified⟩],
         [⟨"l1", "w1", "d1", "x", "https://dest.example/path", LinkStatus.active⟩]⟩
        "example.test" "x" = some ⟨"w1", "l1", "d1", "x", "https://dest.example/path"⟩ →
      redirectOnRequest
        ⟨[⟨"d1", "example.test", DomainStatus.verified⟩],
         [⟨"l1", "w1", "d1", "x", "https://dest.example/path", LinkStatus.active⟩]⟩
        "example.test" "x"
        = { status := 302, location := some "https://dest.example/path" }) := by
  have h := claim_C1_redirect_statuses
    ⟨[⟨"d1", "example.test", DomainStatus.verified⟩],
     [⟨"l1", "w1", "d1", "x", "https://dest.example/path", LinkStatus.active⟩]⟩
    "example.test" "x" ⟨"w1", "l1", "d1", "x", "https://dest.example/path"⟩
    ⟨"d1", "example.test", DomainStatus.verified⟩
    ⟨"l1", "w1", "d1", "x", "https://dest.example/path", LinkStatus.active⟩
  exact ⟨h.1, h.2.1⟩

/-- C5: on a bot-flagged user agent, the detached tracking task stops
before any counter call or queue send — the workspace counter is
unchanged and no click event message is enqueued — while the redirect
response for the resolved link is still 302 to the destination. -/
theorem claim_C5_bot_exclusion (sha256Hex : String → String) (currentMonth : String)
    (plan : Plan) (r : ResolveResult) (m : RequestMeta) (counter : CounterState)
    (hbot : isBotSuspected m.userAgent = true) :
    trackClick sha256Hex currentMonth plan r m counter = (counter, none) ∧
    redirectResponse (ResolveOutcome.completed (some r))
      = { status := 302, location := some r.destination_url } := by
  constructor
  · unfold trackClick
    rw [if_pos hbot]
  · rfl

/-- C5 witness: the Googlebot user agent on a concrete request. -/
theorem claim_C5_bot_exclusion_witness :
    isBotSuspected (some "Mozilla/5.0 (compatible; Googlebot/2.1)") = true ∧
    trackClick (fun s => s) "2026-01" Plan.free
        ⟨"w1", "l1", "d1", "x", "https://dest.example/path"⟩
        ⟨"example.test", 1700000000000, "2026-01-01T00:00:00.000Z",
          some "Mozilla/5.0 (compatible; Googlebot/2.1)", none, some "ray1",
          none, none, none, some "1.2.3.4"⟩
        (initCounterState "2026-01")
      = (initCounterState "2026-01", none) ∧
    redirectResponse (ResolveOutcome.completed
        (some ⟨"w1", "l1", "d1", "x", "https://dest.example/path"⟩))
      = { status := 302, location := some "https://dest.example/path" } := by
  have h := claim_C5_bot_exclusion (fun s => s) "2026-01" Plan.free
    ⟨"w1", "l1", "d1", "x", "https://dest.example/path"⟩
    ⟨"example.test", 1700000000000, "2026-01-01T00:00:00.000Z",
      some "Mozilla/5.0 (compatible; Googlebot/2.1)", none, some "ray1",
      none, none, none, some "1.2.3.4"⟩
    (initCounterState "2026-01") (by decide)
  exact ⟨by decide, h.1, h.2⟩

/-! ## Lemmas on the click log writer -/

theorem insertRawClick_ids_nodup {log : List RawClickRow} {row : RawClickRow}
    (h : (logIds log).Nodup) : (logIds (insertRawClick log row)).Nodup := by
  unfold insertRawClick
  by_cases hc : log.any (fun x => x.id = row.id)
  · rw [if_pos hc]
    exact h
  · rw [if_neg hc]
    unfold logIds
    rw [List.map_append]
    have hnot : row.id ∉ logIds log := by
      intro hmem
      apply hc
      rw [List.any_eq_true]
      obtain ⟨x, hx, hid⟩ := List.mem_map.mp hmem
      exact ⟨x, hx, by simp [hid]⟩
    simp only [List.map_cons, List.map_nil]
    rw [List.nodup_append]
    refine ⟨h, List.nodup_singleton _, ?_⟩
    intro a ha hb
    rw [List.mem_singleton] at hb
    subst hb
    exact hnot ha

theorem mem_ids_insertRawClick {log : List RawClickRow} {row : RawClickRow} {x : String}
    (h : x ∈ logIds log) : x ∈ logIds (insertRawClick log row) := by
  unfold insertRawClick
  by_cases hc : log.any (fun y => y.id = row.id)
  · rw [if_pos hc]; exact h
  · rw [if_neg hc]
    unfold logIds at *
    rw [List.map_append]
    exact List.mem_append_left _ h

theorem id_mem_insertRawClick (log : List RawClickRow) (row : RawClickRow) :
    row.id ∈ logIds (insertRawClick log row) := by
  unfold insertRawClick
  by_cases hc : log.any (fun y => y.id = row.id)
  · rw [if_pos hc]
    rw [List.any_eq_true] at hc
    obtain ⟨y, hy, hid⟩ := hc
    simp only [decide_eq_true_eq] at hid
    exact List.mem_map.mpr ⟨y, hy, hid⟩
  · rw [if_neg hc]
    unfold logIds
    rw [List.map_append]
    exact List.mem_append_right _ (by simp)

theorem foldl_insert_nodup (rows : List RawClickRow) (log : List RawClickRow)
    (h : (logIds log).Nodup) : (logIds (rows.foldl insertRawClick log)).Nodup := by
  induction rows generalizing log with
  | nil => simpa using h
  | cons r rs ih =>
    rw [List.foldl_cons]
    exact ih _ (insertRawClick_ids_nodup h)

theorem foldl_insert_mem (rows : List RawClickRow) (log : List RawClickRow) (x : String)
    (h : x ∈ logIds log) : x ∈ logIds (rows.foldl insertRawClick log) := by
  induction rows generalizing log with
  | nil => simpa using h
  | cons r rs ih =>
    rw [List.foldl_cons]
    exact ih _ (mem_ids_insertRawClick h)

theorem foldl_insert_mem_of_row {row : RawClickRow} :
    ∀ (rows log : List RawClickRow), row ∈ rows →
      row.id ∈ logIds (rows.foldl insertRawClick log) := by
  intro rows
  induction rows with
  | nil => intro log h; cases h
  | cons r rs ih =>
    intro log hrow
    rw [List.foldl_cons]
    rcases List.mem_cons.mp hrow with h | h
    · subst h
      exact foldl_insert_mem rs _ _ (id_mem_insertRawClick log row)
    · exact ih _ h

/-- C4: the click-id is the hex SHA-256 of
`link_id + "|" + ts_millis + "|" + unique_part`, with `unique_part` the
CF-Ray value when available and otherwise the first 16 hex characters of
SHA-256(user-agent); identical inputs (duplicate queue deliveries)
produce identical click-ids, and consuming any batch keeps the raw click
log at exactly one row per click-id while every delivered event's
click-id is present afterwards. -/
theorem claim_C4_click_id (sha256Hex : String → String) (linkId : String) (tsMs : Nat)
    (cfRay userAgent : Option String) (log : List RawClickRow)
    (batch : List ClickEvent) (e : ClickEvent)
    (hlog : (logIds log).Nodup) :
    generateClickId sha256Hex linkId tsMs cfRay userAgent
      = sha256Hex (linkId ++ "|" ++ toString tsMs ++ "|" ++ uniquePartOf sha256Hex cfRay userAgent) ∧
    (logIds (handleClickBatch log batch)).Nodup ∧
    (e ∈ batch → e.click_id ∈ logIds (handleClickBatch log batch)) := by
  refine ⟨rfl, ?_, ?_⟩
  · unfold handleClickBatch
    exact foldl_insert_nodup _ _ hlog
  · intro he
    unfold handleClickBatch
    have : (toRawClickRow e).id ∈ logIds ((batch.map toRawClickRow).foldl insertRawClick log) :=
      foldl_insert_mem_of_row _ log (List.mem_map.mpr ⟨e, he, rfl⟩)
    simpa [toRawClickRow] using this

/-- C4 witness: duplicate deliveries of one event against an empty log. -/
theorem claim_C4_click_id_witness :
    (logIds []).Nodup ∧
    (generateClickId (fun s => s) "l1" 5 (some "ray1") none
        = (fun s : String => s) ("l1" ++ "|" ++ toString 5 ++ "|"
            ++ uniquePartOf (fun s => s) (some "ray1") none) ∧
      (logIds (handleClickBatch []
        [⟨"c1", "t", "w", "l1", "d", "s", "u", none, none, none, none, none, none⟩,
         ⟨"c1", "t", "w", "l1", "d", "s", "u", none, none, none, none, none, none⟩])).Nodup ∧
      ((⟨"c1", "t", "w", "l1", "d", "s", "u", none, none, none, none, none, none⟩ : ClickEvent) ∈
          [⟨"c1", "t", "w", "l1", "d", "s", "u", none, none, none, none, none, none⟩,
           ⟨"c1", "t", "w", "l1", "d", "s", "u", none, none, none, none, none, none⟩] →
        ("c1" : String) ∈ logIds (handleClickBatch []
          [⟨"c1", "t", "w", "l1", "d", "s", "u", none, none, none, none, none, none⟩,
           ⟨"c1", "t", "w", "l1", "d", "s", "u", none, none, none, none, none, none⟩]))) :=
  ⟨by decide,
    claim_C4_click_id (fun s => s) "l1" 5 (some "ray1") none []
      [⟨"c1", "t", "w", "l1", "d", "s", "u", none, none, none, none, none, none⟩,
       ⟨"c1", "t", "w", "l1", "d", "s", "u", none, none, none, none, none, none⟩]
      ⟨"c1", "t", "w", "l1", "d", "s", "u", none, none, none, none, none, none⟩
      (by decide)⟩

/-! ## Lemmas on the usage reporter -/

theorem foldl_report_eq (proClicks : String → Nat) (l : List Workspace)
    (b : List BupRow) (i : List InvoiceItem) :
    l.foldl
      (fun acc w =>
        match reportOne proClicks w with
        | none => acc
        | some (row, inv) => (acc.1 ++ [row], acc.2 ++ inv.toList))
      (b, i)
    = (b ++ l.filterMap (rowOf proClicks), i ++ l.filterMap (invOf proClicks)) := by
  induction l generalizing b i with
  | nil => simp
  | cons w l ih =>
    rw [List.foldl_cons]
    cases hr : reportOne proClicks w with
    | none =>
      simp only [hr]
      rw [ih]
      simp [rowOf, invOf, hr]
    | some p =>
      obtain ⟨row, inv⟩ := p
      simp only [hr]
      rw [ih]
      cases inv <;> simp [rowOf, invOf, hr, List.filterMap_cons]

theorem runUsageReporting_eq (proClicks : String → Nat) (now : String)
    (ws : List Workspace) (bup : List BupRow) :
    runUsageReporting proClicks now ws bup
      = (bup ++ (ws.filter (billableNow now bup)).filterMap (rowOf proClicks),
         (ws.filter (billableNow now bup)).filterMap (invOf proClicks)) := by
  unfold runUsageReporting
  rw [foldl_report_eq]
  simp

theorem countP_filterMap_opt {α β : Type} (f : α → Option β) (p : β → Bool) (l : List α) :
    (l.filterMap f).countP p = l.countP (fun a => ((f a).map p).getD false) := by
  induction l with
  | nil => simp
  | cons a l ih =>
    cases hf : f a with
    | none => simp [List.filterMap_cons, hf, List.countP_cons, ih]
    | some b =>
      simp [List.filterMap_cons, hf, List.countP_cons, ih]

theorem countP_congr_mem {α : Type} {l : List α} {p q : α → Bool}
    (h : ∀ a ∈ l, p a = q a) : l.countP p = l.countP q := by
  induction l with
  | nil => simp
  | cons a l ih =>
    rw [List.countP_cons, List.countP_cons, h a (by simp),
      ih (fun x hx => h x (by simp [hx]))]

theorem reportOne_shape {proClicks : String → Nat} {w : Workspace}
    {p : BupRow × Option InvoiceItem} (h : reportOne proClicks w = some p) :
    p.1.workspace_id = w.id ∧
    (∀ inv, p.2 = some inv → w.stripe_customer_id = some inv.customer) := by
  unfold reportOne at h
  split at h
  case _ cust subscr pstart pend hc hs hps hpe =>
    rw [Option.some_inj] at h
    subst h
    constructor
    · rfl
    · intro inv hinv
      unfold processWorkspaceUsage at hinv
      simp only at hinv
      split at hinv
      · rw [Option.some_inj] at hinv
        subst hinv
        exact hc
      · cases hinv
  case _ => cases h

theorem rowOf_workspace_id {proClicks : String → Nat} {w : Workspace} {r : BupRow}
    (h : rowOf proClicks w = some r) : r.workspace_id = w.id := by
  unfold rowOf at h
  cases hr : reportOne proClicks w with
  | none => rw [hr] at h; cases h
  | some p =>
    rw [hr] at h
    rw [Option.map_some'] at h
    rw [Option.some_inj] at h
    subst h
    exact (reportOne_shape hr).1

theorem invOf_customer {proClicks : String → Nat} {w : Workspace} {i : InvoiceItem}
    (h : invOf proClicks w = some i) : w.stripe_customer_id = some i.customer := by
  unfold invOf at h
  cases hr : reportOne proClicks w with
  | none => rw [hr] at h; cases h
  | some p =>
    rw [hr] at h
    exact (reportOne_shape hr).2 i h

theorem reportOne_eq {proClicks : String → Nat} {w : Workspace}
    {cust subscr pstart pend : String}
    (hc : w.stripe_customer_id = some cust) (hs : w.stripe_subscription_id = some subscr)
    (hps : w.current_period_start = some pstart) (hpe : w.current_period_end = some pend) :
    reportOne proClicks w = some (processWorkspaceUsage proClicks w cust subscr pstart pend) := by
  unfold reportOne
  rw [hc, hs, hps, hpe]

theorem billableNow_true {now : String} {bup : List BupRow} {w : Workspace}
    {cust subscr pend : String}
    (hplan : w.plan_type = "pro") (hstat : w.billing_status = "active")
    (hc : w.stripe_customer_id = some cust) (hs : w.stripe_subscription_id = some subscr)
    (hpe : w.current_period_end = some pend)
    (hend : strLtb pend now = true) (hnew : hasReportedRow bup w = false) :
    billableNow now bup w = true := by
  unfold billableNow
  rw [hplan, hstat, hc, hs, hpe, hnew]
  simp [hend]




/-- C8: for a Pro workspace whose billing period has ended and which has
no billing-usage-period row for that `(period_start, period_end)`, one
Reporter run reads the live Pro counter and, with `T` total clicks,
computes `overage_clicks = max(0, T − 2,000,000)` (Nat subtraction, shown
equivalent to the signed `max`) and an overage amount of
`ceil(overage_clicks / 100,000) × 100` cents; an external invoice item is
created if and only if the overage is positive; exactly one
billing-usage-period row is recorded regardless of overage; and a re-run
for the same period creates no new invoice item and no new row. -/
theorem claim_C8_usage_reporting (proClicks : String → Nat) (now now2 : String)
    (ws : List Workspace) (bup : List BupRow) (w : Workspace)
    (cust subscr pstart pend : String)
    (hcount : ws.countP (fun x => decide (x = w)) = 1)
    (hid : ∀ x ∈ ws, x.id = w.id → x = w)
    (hcust : ∀ x ∈ ws, x.stripe_customer_id = some cust → x = w)
    (hplan : w.plan_type = "pro") (hstat : w.billing_status = "active")
    (hc : w.stripe_customer_id = some cust) (hs : w.stripe_subscription_id = some subscr)
    (hps : w.current_period_start = some pstart) (hpe : w.current_period_end = some pend)
    (hend : strLtb pend now = true)
    (hnew : hasReportedRow bup w = false) :
    (runUsageReporting proClicks now ws bup).1.countP
        (fun r => decide (r.workspace_id = w.id ∧ r.period_start = pstart ∧ r.period_end = pend)) = 1 ∧
    ({ workspace_id := w.id
       period_start := pstart
       period_end := pend
       total_clicks := proClicks w.id
       included_clicks := INCLUDED_CLICKS
       overage_clicks := proClicks w.id - INCLUDED_CLICKS
       overage_amount_cents :=
         (proClicks w.id - INCLUDED_CLICKS + (OVERAGE_UNIT_CLICKS - 1)) / OVERAGE_UNIT_CLICKS
           * OVERAGE_UNIT_CENTS
       has_invoice_item := decide (0 < proClicks w.id - INCLUDED_CLICKS) } : BupRow)
      ∈ (runUsageReporting proClicks now ws bup).1 ∧
    ((proClicks w.id - INCLUDED_CLICKS : Nat) : Int)
      = max 0 ((proClicks w.id : Int) - (INCLUDED_CLICKS : Int)) ∧
    (runUsageReporting proClicks now ws bup).2.countP (fun i => decide (i.customer = cust))
      = (if INCLUDED_CLICKS < proClicks w.id then 1 else 0) ∧
    (INCLUDED_CLICKS < proClicks w.id →
      ({ customer := cust
         subscription := subscr
         overage_clicks := proClicks w.id - INCLUDED_CLICKS
         amount_cents :=
           (proClicks w.id - INCLUDED_CLICKS + (OVERAGE_UNIT_CLICKS - 1)) / OVERAGE_UNIT_CLICKS
             * OVERAGE_UNIT_CENTS
         period_start := pstart.take 10
         period_end := pend.take 10 } : InvoiceItem)
        ∈ (runUsageReporting proClicks now ws bup).2) ∧
    (runUsageReporting proClicks now2 ws
        (runUsageReporting proClicks now ws bup).1).1.countP
        (fun r => decide (r.workspace_id = w.id ∧ r.period_start = pstart ∧ r.period_end = pend)) = 1 ∧
    (runUsageReporting proClicks now2 ws
        (runUsageReporting proClicks now ws bup).1).2.countP
        (fun i => decide (i.customer = cust)) = 0 := by
  have hbill : billableNow now bup w = true := billableNow_true hplan hstat hc hs hpe hend hnew
  have hrep : reportOne proClicks w = some (processWorkspaceUsage proClicks w cust subscr pstart pend) :=
    reportOne_eq hc hs hps hpe
  have hrow : rowOf proClicks w = some (processWorkspaceUsage proClicks w cust subscr pstart pend).1 := by
    unfold rowOf; rw [hrep]; rfl
  have hwmem : w ∈ ws := by
    by_contra hwn
    have h0 : ws.countP (fun x => decide (x = w)) = 0 := by
      apply List.countP_eq_zero.mpr
      intro a ha
      simp only [decide_eq_true_eq]
      intro hEq
      exact hwn (hEq ▸ ha)
    omega
  have hrowval : (processWorkspaceUsage proClicks w cust subscr pstart pend).1
      = { workspace_id := w.id
          period_start := pstart
          period_end := pend
          total_clicks := proClicks w.id
          included_clicks := INCLUDED_CLICKS
          overage_clicks := proClicks w.id - INCLUDED_CLICKS
          overage_amount_cents :=
            (proClicks w.id - INCLUDED_CLICKS + (OVERAGE_UNIT_CLICKS - 1)) / OVERAGE_UNIT_CLICKS
              * OVERAGE_UNIT_CENTS
          has_invoice_item := decide (0 < proClicks w.id - INCLUDED_CLICKS) } := rfl
  have hinvw : invOf proClicks w
      = (if 0 < proClicks w.id - INCLUDED_CLICKS then
          some { customer := cust
                 subscription := subscr
                 overage_clicks := proClicks w.id - INCLUDED_CLICKS
                 amount_cents :=
                   (proClicks w.id - INCLUDED_CLICKS + (OVERAGE_UNIT_CLICKS - 1)) / OVERAGE_UNIT_CLICKS
                     * OVERAGE_UNIT_CENTS
                 period_start := pstart.take 10
                 period_end := pend.take 10 }
         else none) := by
    unfold invOf
    rw [hrep, Option.some_bind]
    unfold processWorkspaceUsage
    dsimp only
  have hsplitrow : ∀ (b0 : List BupRow) (nowX : String) (p : BupRow → Bool),
      (runUsageReporting proClicks nowX ws b0).1.countP p =
        b0.countP p
          + ws.countP (fun x => (((rowOf proClicks x).map p).getD false) && billableNow nowX b0 x) := by
    intro b0 nowX p
    rw [runUsageReporting_eq]
    simp only
    rw [List.countP_append, countP_filterMap_opt, List.countP_filter]
  have hsplitinv : ∀ (b0 : List BupRow) (nowX : String) (q : InvoiceItem → Bool),
      (runUsageReporting proClicks nowX ws b0).2.countP q =
        ws.countP (fun x => (((invOf proClicks x).map q).getD false) && billableNow nowX b0 x) := by
    intro b0 nowX q
    rw [runUsageReporting_eq]
    simp only
    rw [countP_filterMap_opt, List.countP_filter]
  -- row predicate never matches a row produced by a workspace other than w
  have hrowother : ∀ x ∈ ws, x ≠ w → ∀ (b0 : List BupRow) (nowX : String),
      (((rowOf proClicks x).map
          (fun r => decide (r.workspace_id = w.id ∧ r.period_start = pstart ∧ r.period_end = pend))).getD false
        && billableNow nowX b0 x) = false := by
    intro x hx hxw b0 nowX
    cases hro : rowOf proClicks x with
    | none => simp
    | some r =>
      have hfalse : decide (r.workspace_id = w.id ∧ r.period_start = pstart ∧ r.period_end = pend) = false := by
        simp only [decide_eq_false_iff_not]
        rintro ⟨h1, -, -⟩
        have hxid : x.id = w.id := by rw [← rowOf_workspace_id hro]; exact h1
        exact hxw (hid x hx hxid)
      simp only [Option.map_some', Option.getD_some, hfalse, Bool.false_and]
  have hinvother : ∀ x ∈ ws, x ≠ w → ∀ (b0 : List BupRow) (nowX : String),
      (((invOf proClicks x).map (fun i => decide (i.customer = cust))).getD false
        && billableNow nowX b0 x) = false := by
    intro x hx hxw b0 nowX
    cases hio : invOf proClicks x with
    | none => simp
    | some i =>
      have hfalse : decide (i.customer = cust) = false := by
        simp only [decide_eq_false_iff_not]
        intro h1
        have : x.stripe_customer_id = some cust := by rw [invOf_customer hio, h1]
        exact hxw (hcust x hx this)
      simp only [Option.map_some', Option.getD_some, hfalse, Bool.false_and]
  have hbup0 : bup.countP
      (fun r => decide (r.workspace_id = w.id ∧ r.period_start = pstart ∧ r.period_end = pend)) = 0 := by
    apply List.countP_eq_zero.mpr
    intro r hr
    simp only [decide_eq_true_eq]
    rintro ⟨h1, h2, h3⟩
    unfold hasReportedRow at hnew
    rw [List.any_eq_false] at hnew
    have := hnew r hr
    simp [h1, h2, h3, hps, hpe] at this
  have hcnt1 : (runUsageReporting proClicks now ws bup).1.countP
      (fun r => decide (r.workspace_id = w.id ∧ r.period_start = pstart ∧ r.period_end = pend)) = 1 := by
    rw [hsplitrow, hbup0]
    have hpt : ∀ x ∈ ws,
        ((((rowOf proClicks x).map
            (fun r => decide (r.workspace_id = w.id ∧ r.period_start = pstart ∧ r.period_end = pend))).getD false)
          && billableNow now bup x) = decide (x = w) := by
      intro x hx
      by_cases hxw : x = w
      · subst hxw
        rw [hrow]
        simp [hrowval, hbill]
      · rw [hrowother x hx hxw bup now]
        simp [hxw]
    rw [countP_congr_mem hpt, hcount]
  have hmemrow : (processWorkspaceUsage proClicks w cust subscr pstart pend).1
      ∈ (runUsageReporting proClicks now ws bup).1 := by
    rw [runUsageReporting_eq]
    simp only
    exact List.mem_append_right _
      (List.mem_filterMap.mpr ⟨w, List.mem_filter.mpr ⟨hwmem, hbill⟩, hrow⟩)
  have hcntinv : (runUsageReporting proClicks now ws bup).2.countP
      (fun i => decide (i.customer = cust))
      = (if INCLUDED_CLICKS < proClicks w.id then 1 else 0) := by
    rw [hsplitinv]
    by_cases hT : INCLUDED_CLICKS < proClicks w.id
    · have hpos : 0 < proClicks w.id - INCLUDED_CLICKS := by omega
      have hpt : ∀ x ∈ ws,
          ((((invOf proClicks x).map (fun i => decide (i.customer = cust))).getD false)
            && billableNow now bup x) = decide (x = w) := by
        intro x hx
        by_cases hxw : x = w
        · subst hxw
          rw [hinvw, if_pos hpos]
          simp [hbill]
        · rw [hinvother x hx hxw bup now]
          simp [hxw]
      rw [countP_congr_mem hpt, hcount, if_pos hT]
    · have hneg : ¬ 0 < proClicks w.id - INCLUDED_CLICKS := by omega
      have hpt : ∀ x ∈ ws,
          ((((invOf proClicks x).map (fun i => decide (i.customer = cust))).getD false)
            && billableNow now bup x) = false := by
        intro x hx
        by_cases hxw : x = w
        · subst hxw
          rw [hinvw, if_neg hneg]
          simp
        · exact hinvother x hx hxw bup now
      rw [countP_congr_mem hpt, if_neg hT]
      simp
  have hrep1 : hasReportedRow (runUsageReporting proClicks now ws bup).1 w = true := by
    unfold hasReportedRow
    rw [List.any_eq_true]
    refine ⟨(processWorkspaceUsage proClicks w cust subscr pstart pend).1, hmemrow, ?_⟩
    rw [hrowval]
    simp [hps, hpe]
  have hbill2 : billableNow now2 (runUsageReporting proClicks now ws bup).1 w = false := by
    unfold billableNow
    rw [hrep1]
    simp
  refine ⟨hcnt1, ?_, by omega, hcntinv, ?_, ?_, ?_⟩
  · rw [← hrowval]
    exact hmemrow
  · intro hT
    have hpos : 0 < proClicks w.id - INCLUDED_CLICKS := by omega
    rw [runUsageReporting_eq]
    simp only
    refine List.mem_filterMap.mpr ⟨w, List.mem_filter.mpr ⟨hwmem, hbill⟩, ?_⟩
    rw [hinvw, if_pos hpos]
  · rw [hsplitrow, hcnt1]
    have hpt : ∀ x ∈ ws,
        ((((rowOf proClicks x).map
            (fun r => decide (r.workspace_id = w.id ∧ r.period_start = pstart ∧ r.period_end = pend))).getD false)
          && billableNow now2 (runUsageReporting proClicks now ws bup).1 x) = false := by
      intro x hx
      by_cases hxw : x = w
      · subst hxw
        rw [hbill2]
        simp
      · exact hrowother x hx hxw _ now2
    rw [countP_congr_mem hpt]
    simp
  · rw [hsplitinv]
    have hpt : ∀ x ∈ ws,
        ((((invOf proClicks x).map (fun i => decide (i.customer = cust))).getD false)
          && billableNow now2 (runUsageReporting proClicks now ws bup).1 x) = false := by
      intro x hx
      by_cases hxw : x = w
      · subst hxw
        rw [hbill2]
        simp
      · exact hinvother x hx hxw _ now2
    rw [countP_congr_mem hpt]
    simp

/-- C8 witness: one Pro workspace with 2,150,000 tracked clicks and an
ended period — one run records one row and a 200-cent invoice item; the
re-run adds neither. -/
theorem claim_C8_usage_reporting_witness :
    (runUsageReporting (fun _ => 2150000) "2026-02-02T00:00:00.000Z"
        [⟨"ws1", "pro", "active", some "cus_1", some "sub_1",
          some "2026-01-01T00:00:00.000Z", some "2026-02-01T00:00:00.000Z"⟩] []).1.countP
        (fun r => decide (r.workspace_id = "ws1" ∧
          r.period_start = "2026-01-01T00:00:00.000Z" ∧
          r.period_end = "2026-02-01T00:00:00.000Z")) = 1 ∧
    (runUsageReporting (fun _ => 2150000) "2026-02-02T00:00:00.000Z"
        [⟨"ws1", "pro", "active", some "cus_1", some "sub_1",
          some "2026-01-01T00:00:00.000Z", some "2026-02-01T00:00:00.000Z"⟩] []).2.countP
        (fun i => decide (i.customer = "cus_1")) = (if INCLUDED_CLICKS < 2150000 then 1 else 0) ∧
    (INCLUDED_CLICKS < 2150000 →
      ({ customer := "cus_1"
         subscription := "sub_1"
         overage_clicks := 150000
         amount_cents := 200
         period_start := "2026-01-01"
         period_end := "2026-02-01" } : InvoiceItem)
        ∈ (runUsageReporting (fun _ => 2150000) "2026-02-02T00:00:00.000Z"
            [⟨"ws1", "pro", "active", some "cus_1", some "sub_1",
              some "2026-01-01T00:00:00.000Z", some "2026-02-01T00:00:00.000Z"⟩] []).2) ∧
    (runUsageReporting (fun _ => 2150000) "2026-02-03T00:00:00.000Z"
        [⟨"ws1", "pro", "active", some "cus_1", some "sub_1",
          some "2026-01-01T00:00:00.000Z", some "2026-02-01T00:00:00.000Z"⟩]
        (runUsageReporting (fun _ => 2150000) "2026-02-02T00:00:00.000Z"
          [⟨"ws1", "pro", "active", some "cus_1", some "sub_1",
            some "2026-01-01T00:00:00.000Z", some "2026-02-01T00:00:00.000Z"⟩] []).1).1.countP
        (fun r => decide (r.workspace_id = "ws1" ∧
          r.period_start = "2026-01-01T00:00:00.000Z" ∧
          r.period_end = "2026-02-01T00:00:00.000Z")) = 1 ∧
    (runUsageReporting (fun _ => 2150000) "2026-02-03T00:00:00.000Z"
        [⟨"ws1", "pro", "active", some "cus_1", some "sub_1",
          some "2026-01-01T00:00:00.000Z", some "2026-02-01T00:00:00.000Z"⟩]
        (runUsageReporting (fun _ => 2150000) "2026-02-02T00:00:00.000Z"
          [⟨"ws1", "pro", "active", some "cus_1", some "sub_1",
            some "2026-01-01T00:00:00.000Z", some "2026-02-01T00:00:00.000Z"⟩] []).1).2.countP
        (fun i => decide (i.customer = "cus_1")) = 0 := by
  have h := claim_C8_usage_reporting (fun _ => 2150000)
    "2026-02-02T00:00:00.000Z" "2026-02-03T00:00:00.000Z"
    [⟨"ws1", "pro", "active", some "cus_1", some "sub_1",
      some "2026-01-01T00:00:00.000Z", some "2026-02-01T00:00:00.000Z"⟩] []
    ⟨"ws1", "pro", "active", some "cus_1", some "sub_1",
      some "2026-01-01T00:00:00.000Z", some "2026-02-01T00:00:00.000Z"⟩
    "cus_1" "sub_1" "2026-01-01T00:00:00.000Z" "2026-02-01T00:00:00.000Z"
    (by decide) (by decide) (by decide) (by decide) (by decide)
    (by decide) (by decide) (by decide) (by decide) (by decide) (by decide)
  exact ⟨h.1, h.2.2.2.1, h.2.2.2.2.1, h.2.2.2.2.2.1, h.2.2.2.2.2.2⟩

/-! ## Lemmas on the aggregation job -/

theorem strLtb_trans {a b c : String} (h1 : strLtb a b = true) (h2 : strLtb b c = true) :
    strLtb a c = true := by
  rw [strLtb_iff] at *
  exact lt_trans h1 h2

theorem tsLe_iff (a b : AggClick) : tsLe a b ↔ a.ts ≤ b.ts := by
  rw [tsLe, strLtb_eq_false_iff]

theorem countP_split_bool {α : Type} (l : List α) (p q : α → Bool) :
    l.countP p = l.countP (fun a => p a && q a) + l.countP (fun a => p a && !q a) := by
  induction l with
  | nil => simp
  | cons a l ih =>
    rw [List.countP_cons, List.countP_cons, List.countP_cons]
    cases hp : p a <;> cases hq : q a <;> simp [hp, hq] <;> omega

theorem maxTsOf_init_le (rows : List AggClick) (hwm : String) : hwm ≤ maxTsOf hwm rows := by
  unfold maxTsOf
  induction rows generalizing hwm with
  | nil => simp
  | cons c l ih =>
    rw [List.foldl_cons]
    by_cases h : strLtb hwm c.ts = true
    · rw [if_pos h]
      exact le_trans (le_of_lt ((strLtb_iff _ _).mp h)) (ih c.ts)
    · rw [if_neg h]
      exact ih hwm

theorem maxTsOf_mem_le (rows : List AggClick) (hwm : String) :
    ∀ c ∈ rows, c.ts ≤ maxTsOf hwm rows := by
  unfold maxTsOf
  induction rows generalizing hwm with
  | nil => simp
  | cons d l ih =>
    intro c hc
    rw [List.foldl_cons]
    rcases List.mem_cons.mp hc with h | h
    · subst h
      by_cases hlt : strLtb hwm c.ts = true
      · rw [if_pos hlt]
        exact maxTsOf_init_le l c.ts
      · rw [if_neg hlt]
        have : c.ts ≤ hwm := by
          rw [← strLtb_eq_false_iff]
          exact Bool.not_eq_true _ ▸ (by simpa using hlt)
        exact le_trans this (maxTsOf_init_le l hwm)
    · by_cases hlt : strLtb hwm d.ts = true
      · rw [if_pos hlt]
        exact ih d.ts c h
      · rw [if_neg hlt]
        exact ih hwm c h

theorem maxTsOf_cases (rows : List AggClick) (hwm : String) :
    maxTsOf hwm rows = hwm ∨ ∃ c ∈ rows, maxTsOf hwm rows = c.ts := by
  unfold maxTsOf
  induction rows generalizing hwm with
  | nil => left; rfl
  | cons d l ih =>
    rw [List.foldl_cons]
    by_cases hlt : strLtb hwm d.ts = true
    · rw [if_pos hlt]
      rcases ih d.ts with h | ⟨c, hc, h⟩
      · right; exact ⟨d, by simp, h⟩
      · right; exact ⟨c, by simp [hc], h⟩
    · rw [if_neg hlt]
      rcases ih hwm with h | ⟨c, hc, h⟩
      · left; exact h
      · right; exact ⟨c, by simp [hc], h⟩

theorem fetchBatch_above (C : List AggClick) (hwm : String) :
    ∀ c ∈ fetchBatch C hwm, strLtb hwm c.ts = true := by
  intro c hc
  unfold fetchBatch at hc
  have hP := List.mem_of_mem_take hc
  have hF := (List.perm_insertionSort tsLe _).mem_iff.mp hP
  exact (List.mem_filter.mp hF).2

theorem drop_gt_max (C : List AggClick) (hwm : String)
    (hN : (C.map AggClick.ts).Nodup) :
    ∀ d ∈ ((C.filter (fun c => strLtb hwm c.ts)).insertionSort tsLe).drop BATCH_SIZE,
      strLtb (maxTsOf hwm (fetchBatch C hwm)) d.ts = true := by
  intro d hd
  set F := C.filter (fun c => strLtb hwm c.ts) with hF
  set P := F.insertionSort tsLe with hP
  have hsort : List.Sorted tsLe P := List.sorted_insertionSort tsLe F
  have hperm : P.Perm F := List.perm_insertionSort tsLe F
  have hnodF : (F.map AggClick.ts).Nodup :=
    List.Nodup.sublist (List.Sublist.map AggClick.ts (List.filter_sublist C)) hN
  have hnodP : (P.map AggClick.ts).Nodup :=
    ((hperm.map AggClick.ts).nodup_iff).mpr hnodF
  have hpair_ne : P.Pairwise (fun a b => a.ts ≠ b.ts) := List.pairwise_map.mp hnodP
  have hpair_lt : P.Pairwise (fun a b => a.ts < b.ts) := by
    have := List.Pairwise.and hsort hpair_ne
    exact this.imp (fun h => lt_of_le_of_ne ((tsLe_iff _ _).mp h.1) h.2)
  have hcross : ∀ a ∈ P.take BATCH_SIZE, ∀ b ∈ P.drop BATCH_SIZE, a.ts < b.ts := by
    have h := hpair_lt
    rw [← List.take_append_drop BATCH_SIZE P] at h
    exact (List.pairwise_append.mp h).2.2
  have hrows : fetchBatch C hwm = P.take BATCH_SIZE := rfl
  rcases maxTsOf_cases (fetchBatch C hwm) hwm with hm | ⟨c, hc, hm⟩
  · rw [hm]
    have hdP : d ∈ P := List.mem_of_mem_drop hd
    have hdF : d ∈ F := hperm.mem_iff.mp hdP
    exact (List.mem_filter.mp hdF).2
  · rw [hm, strLtb_iff]
    exact hcross c (hrows ▸ hc) d hd

theorem countP_done_split (C : List AggClick) (hwm : String)
    (hN : (C.map AggClick.ts).Nodup) (q : AggClick → Bool) :
    C.countP (fun c => q c && !(strLtb (maxTsOf hwm (fetchBatch C hwm)) c.ts))
      = C.countP (fun c => q c && !(strLtb hwm c.ts)) + (fetchBatch C hwm).countP q := by
  have hle : hwm ≤ maxTsOf hwm (fetchBatch C hwm) := maxTsOf_init_le _ _
  have hsplit := countP_split_bool C
    (fun c => q c && !(strLtb (maxTsOf hwm (fetchBatch C hwm)) c.ts))
    (fun c => !(strLtb hwm c.ts))
  have h1 : C.countP (fun c =>
        (q c && !(strLtb (maxTsOf hwm (fetchBatch C hwm)) c.ts)) && !(strLtb hwm c.ts))
      = C.countP (fun c => q c && !(strLtb hwm c.ts)) := by
    apply countP_congr_mem
    intro c hc
    by_cases hcb : strLtb hwm c.ts = true
    · simp [hcb]
    · have hcb' : strLtb hwm c.ts = false := by simpa using hcb
      have hts : c.ts ≤ hwm := (strLtb_eq_false_iff _ _).mp hcb'
      have hM : strLtb (maxTsOf hwm (fetchBatch C hwm)) c.ts = false :=
        (strLtb_eq_false_iff _ _).mpr (le_trans hts hle)
      simp [hcb', hM]
  have h2 : C.countP (fun c =>
        (q c && !(strLtb (maxTsOf hwm (fetchBatch C hwm)) c.ts)) && !(!(strLtb hwm c.ts)))
      = (fetchBatch C hwm).countP q := by
    have hstep1 : C.countP (fun c =>
          (q c && !(strLtb (maxTsOf hwm (fetchBatch C hwm)) c.ts)) && !(!(strLtb hwm c.ts)))
        = (C.filter (fun c => strLtb hwm c.ts)).countP
            (fun c => q c && !(strLtb (maxTsOf hwm (fetchBatch C hwm)) c.ts)) := by
      rw [List.countP_filter]
      apply countP_congr_mem
      intro c hc
      cases hq : q c <;> cases hm : strLtb (maxTsOf hwm (fetchBatch C hwm)) c.ts <;>
        cases hh : strLtb hwm c.ts <;> simp [hq, hm, hh]
    rw [hstep1]
    have hstep2 : (C.filter (fun c => strLtb hwm c.ts)).countP
          (fun c => q c && !(strLtb (maxTsOf hwm (fetchBatch C hwm)) c.ts))
        = (((C.filter (fun c => strLtb hwm c.ts)).insertionSort tsLe)).countP
            (fun c => q c && !(strLtb (maxTsOf hwm (fetchBatch C hwm)) c.ts)) :=
      ((List.perm_insertionSort tsLe _).countP_eq _).symm
    rw [hstep2]
    rw [← List.take_append_drop BATCH_SIZE
      ((C.filter (fun c => strLtb hwm c.ts)).insertionSort tsLe), List.countP_append]
    have hrows : ∀ c ∈ ((C.filter (fun c => strLtb hwm c.ts)).insertionSort tsLe).take BATCH_SIZE,
        (fun c => q c && !(strLtb (maxTsOf hwm (fetchBatch C hwm)) c.ts)) c = q c := by
      intro c hc
      have : c.ts ≤ maxTsOf hwm (fetchBatch C hwm) := maxTsOf_mem_le _ _ c hc
      have hm : strLtb (maxTsOf hwm (fetchBatch C hwm)) c.ts = false :=
        (strLtb_eq_false_iff _ _).mpr this
      simp [hm]
    have hdrop : ∀ d ∈ ((C.filter (fun c => strLtb hwm c.ts)).insertionSort tsLe).drop BATCH_SIZE,
        (fun c => q c && !(strLtb (maxTsOf hwm (fetchBatch C hwm)) c.ts)) d = false := by
      intro d hd
      have hm := drop_gt_max C hwm hN d hd
      simp [hm]
    rw [countP_congr_mem hrows]
    have hz : (((C.filter (fun c => strLtb hwm c.ts)).insertionSort tsLe).drop BATCH_SIZE).countP
        (fun c => q c && !(strLtb (maxTsOf hwm (fetchBatch C hwm)) c.ts)) = 0 := by
      apply List.countP_eq_zero.mpr
      intro d hd h
      simp [hdrop d hd] at h
    rw [hz, Nat.add_zero]
    rfl
  rw [hsplit, h1, h2]

theorem countP_pending_split (C : List AggClick) (hwm : String)
    (hN : (C.map AggClick.ts).Nodup) :
    C.countP (fun c => strLtb hwm c.ts)
      = C.countP (fun c => strLtb (maxTsOf hwm (fetchBatch C hwm)) c.ts)
        + (fetchBatch C hwm).length := by
  have hle : hwm ≤ maxTsOf hwm (fetchBatch C hwm) := maxTsOf_init_le _ _
  have hsplit := countP_split_bool C (fun c => strLtb hwm c.ts)
    (fun c => strLtb (maxTsOf hwm (fetchBatch C hwm)) c.ts)
  have h1 : C.countP (fun c => strLtb hwm c.ts && strLtb (maxTsOf hwm (fetchBatch C hwm)) c.ts)
      = C.countP (fun c => strLtb (maxTsOf hwm (fetchBatch C hwm)) c.ts) := by
    apply countP_congr_mem
    intro c hc
    cases hm : strLtb (maxTsOf hwm (fetchBatch C hwm)) c.ts
    · simp [hm]
    · have : strLtb hwm c.ts = true := by
        rw [strLtb_iff] at hm ⊢
        exact lt_of_le_of_lt hle hm
      simp [hm, this]
  have h2 : C.countP (fun c => strLtb hwm c.ts && !(strLtb (maxTsOf hwm (fetchBatch C hwm)) c.ts))
      = (fetchBatch C hwm).length := by
    have hgen := countP_done_split C hwm hN (fun _ => true)
    have ha : C.countP (fun c => (fun _ => true) c && !(strLtb (maxTsOf hwm (fetchBatch C hwm)) c.ts))
        = C.countP (fun c => !(strLtb (maxTsOf hwm (fetchBatch C hwm)) c.ts)) := by
      apply countP_congr_mem; intro c hc; simp
    have hb : C.countP (fun c => (fun _ => true) c && !(strLtb hwm c.ts))
        = C.countP (fun c => !(strLtb hwm c.ts)) := by
      apply countP_congr_mem; intro c hc; simp
    have hc' : (fetchBatch C hwm).countP (fun _ => true) = (fetchBatch C hwm).length := by
      simp
    rw [ha, hb, hc'] at hgen
    -- now: countP (≤ M) = countP (≤ hwm) + |rows|; convert to pending counts
    have hcompl1 := countP_split_bool C
      (fun c => strLtb hwm c.ts && !(strLtb (maxTsOf hwm (fetchBatch C hwm)) c.ts)) (fun _ => true)
    -- direct proof instead: pending∧≤M  =  ≤M minus ≤hwm
    have hd : C.countP (fun c => strLtb hwm c.ts && !(strLtb (maxTsOf hwm (fetchBatch C hwm)) c.ts))
          + C.countP (fun c => !(strLtb hwm c.ts))
        = C.countP (fun c => !(strLtb (maxTsOf hwm (fetchBatch C hwm)) c.ts)) := by
      have hsp := countP_split_bool C
        (fun c => !(strLtb (maxTsOf hwm (fetchBatch C hwm)) c.ts)) (fun c => strLtb hwm c.ts)
      have he : C.countP (fun c => !(strLtb (maxTsOf hwm (fetchBatch C hwm)) c.ts) && strLtb hwm c.ts)
          = C.countP (fun c => strLtb hwm c.ts && !(strLtb (maxTsOf hwm (fetchBatch C hwm)) c.ts)) := by
        apply countP_congr_mem
        intro c hc
        cases h1' : strLtb hwm c.ts <;>
          cases h2' : strLtb (maxTsOf hwm (fetchBatch C hwm)) c.ts <;> simp [h1', h2']
      have hf : C.countP (fun c => !(strLtb (maxTsOf hwm (fetchBatch C hwm)) c.ts) && !(strLtb hwm c.ts))
          = C.countP (fun c => !(strLtb hwm c.ts)) := by
        apply countP_congr_mem
        intro c hc
        cases h1' : strLtb hwm c.ts
        · have hts : c.ts ≤ hwm := (strLtb_eq_false_iff _ _).mp h1'
          have : strLtb (maxTsOf hwm (fetchBatch C hwm)) c.ts = false :=
            (strLtb_eq_false_iff _ _).mpr (le_trans hts hle)
          simp [h1', this]
        · simp [h1']
      omega
    omega
  rw [hsplit, h1]
  omega

theorem tally_foldl (key : AggClick → String) (l : List AggClick) (m : String → Nat) (k : String) :
    (l.foldl (fun m c => fun k' => if k' = key c then m k' + 1 else m k') m) k
      = m k + l.countP (fun c => decide (key c = k)) := by
  induction l generalizing m with
  | nil => simp
  | cons c l ih =>
    rw [List.foldl_cons, ih, List.countP_cons]
    by_cases h : k = key c
    · simp [h]
      omega
    · have h' : ¬ (key c = k) := fun hc => h hc.symm
      simp [h, h']

theorem tally_eq_countP (key : AggClick → String) (l : List AggClick) (k : String) :
    tally key l k = l.countP (fun c => decide (key c = k)) := by
  unfold tally
  rw [tally_foldl]
  omega

theorem aggInv_init (parseURLHost : String → Option String) (C : List AggClick)
    (hepoch : ∀ c ∈ C, strLtb EPOCH_TS c.ts = true) :
    aggInv parseURLHost C initAggState := by
  refine ⟨?_, ?_, ?_, ?_, ?_⟩ <;>
  · intro k
    show 0 = _
    symm
    apply List.countP_eq_zero.mpr
    intro c hc h
    have he : strLtb initAggState.last_processed_ts c.ts = true := hepoch c hc
    rw [he] at h
    simp at h

theorem runAggregation_empty {parseURLHost : String → Option String} {C : List AggClick}
    {s : AggState} (h : (fetchBatch C s.last_processed_ts).isEmpty = true) :
    runAggregation parseURLHost C s = s := by
  unfold runAggregation
  rw [if_pos h]

theorem runAggregation_nonempty {parseURLHost : String → Option String} {C : List AggClick}
    {s : AggState} (h : ¬ (fetchBatch C s.last_processed_ts).isEmpty = true) :
    runAggregation parseURLHost C s =
      { rollup_daily_workspace := fun k => s.rollup_daily_workspace k
          + tally wsRow (fetchBatch C s.last_processed_ts) k
        rollup_daily_link := fun k => s.rollup_daily_link k
          + tally linkRow (fetchBatch C s.last_processed_ts) k
        rollup_referrer_daily := fun k => s.rollup_referrer_daily k
          + tally (refRow parseURLHost) (fetchBatch C s.last_processed_ts) k
        rollup_country_daily := fun k => s.rollup_country_daily k
          + tally countryRow (fetchBatch C s.last_processed_ts) k
        rollup_device_daily := fun k => s.rollup_device_daily k
          + tally deviceRow (fetchBatch C s.last_processed_ts) k
        last_processed_ts := maxTsOf s.last_processed_ts (fetchBatch C s.last_processed_ts) } := by
  unfold runAggregation
  rw [if_neg h]

theorem aggInv_step (parseURLHost : String → Option String) (C : List AggClick)
    (s : AggState) (hN : (C.map AggClick.ts).Nodup)
    (h : aggInv parseURLHost C s) :
    aggInv parseURLHost C (runAggregation parseURLHost C s) := by
  by_cases hrows : (fetchBatch C s.last_processed_ts).isEmpty = true
  · rw [runAggregation_empty hrows]
    exact h
  · rw [runAggregation_nonempty hrows]
    obtain ⟨h1, h2, h3, h4, h5⟩ := h
    refine ⟨?_, ?_, ?_, ?_, ?_⟩ <;>
      intro k <;>
      simp only [] <;>
      rw [tally_eq_countP]
    · rw [h1 k, ← countP_done_split C s.last_processed_ts hN]
    · rw [h2 k, ← countP_done_split C s.last_processed_ts hN]
    · rw [h3 k, ← countP_done_split C s.last_processed_ts hN]
    · rw [h4 k, ← countP_done_split C s.last_processed_ts hN]
    · rw [h5 k, ← countP_done_split C s.last_processed_ts hN]

theorem aggInv_iterate (parseURLHost : String → Option String) (C : List AggClick)
    (s : AggState) (hN : (C.map AggClick.ts).Nodup) (n : Nat)
    (h : aggInv parseURLHost C s) :
    aggInv parseURLHost C ((runAggregation parseURLHost C)^[n] s) := by
  induction n with
  | zero => simpa using h
  | succ m ih =>
    rw [Function.iterate_succ_apply']
    exact aggInv_step parseURLHost C _ hN ih

theorem fetchBatch_length (C : List AggClick) (hwm : String) :
    (fetchBatch C hwm).length
      = min BATCH_SIZE (C.countP (fun c => strLtb hwm c.ts)) := by
  unfold fetchBatch
  rw [List.length_take, (List.perm_insertionSort tsLe _).length_eq,
    ← List.countP_eq_length_filter]

theorem fetchBatch_empty_iff (C : List AggClick) (hwm : String) :
    (fetchBatch C hwm).isEmpty = true ↔ C.countP (fun c => strLtb hwm c.ts) = 0 := by
  rw [List.isEmpty_iff_length_eq_zero, fetchBatch_length]
  unfold BATCH_SIZE
  omega

theorem run_noop (parseURLHost : String → Option String) (C : List AggClick) (s : AggState)
    (h : C.countP (fun c => strLtb s.last_processed_ts c.ts) = 0) :
    runAggregation parseURLHost C s = s :=
  runAggregation_empty ((fetchBatch_empty_iff C s.last_processed_ts).mpr h)

theorem pending_after_run (parseURLHost : String → Option String) (C : List AggClick)
    (s : AggState) (hN : (C.map AggClick.ts).Nodup) :
    C.countP (fun c => strLtb (runAggregation parseURLHost C s).last_processed_ts c.ts)
      = C.countP (fun c => strLtb s.last_processed_ts c.ts)
        - (fetchBatch C s.last_processed_ts).length := by
  by_cases hrows : (fetchBatch C s.last_processed_ts).isEmpty = true
  · rw [runAggregation_empty hrows]
    have : (fetchBatch C s.last_processed_ts).length = 0 := by
      rw [List.isEmpty_iff_length_eq_zero] at hrows
      exact hrows
    omega
  · rw [runAggregation_nonempty hrows]
    have hsplit := countP_pending_split C s.last_processed_ts hN
    simp only []
    omega

theorem pending_iterate (parseURLHost : String → Option String) (C : List AggClick)
    (s : AggState) (hN : (C.map AggClick.ts).Nodup) (n : Nat) :
    C.countP (fun c =>
        strLtb ((runAggregation parseURLHost C)^[n] s).last_processed_ts c.ts)
      ≤ C.countP (fun c => strLtb s.last_processed_ts c.ts) - n := by
  induction n with
  | zero => simp
  | succ m ih =>
    rw [Function.iterate_succ_apply']
    set t := (runAggregation parseURLHost C)^[m] s with ht
    rw [pending_after_run parseURLHost C t hN]
    by_cases hz : C.countP (fun c => strLtb t.last_processed_ts c.ts) = 0
    · omega
    · have hlen : 0 < (fetchBatch C t.last_processed_ts).length := by
        rw [fetchBatch_length]
        unfold BATCH_SIZE
        omega
      omega

/-- C3 (amended): starting from the initial aggregation state (epoch mark,
empty rollups), for any finite list `C` of raw clicks with
pairwise-distinct timestamps all above the epoch mark, running the
Aggregator at least `|C|` times processes every click (each run reads only
clicks with `ts` strictly above the mark and advances the mark to the
batch maximum): afterwards every rollup row of each of the five tables
equals the number of clicks of `C` whose WRITTEN row — the bucket key
after the upsert loop's `key.split('|')` re-binding, which truncates a
pipe-containing normalized referrer — maps to it, and one further run with
no new clicks is a no-op. The original per-bucket-key equality fails for a
referrer containing `|` (see the counterexample), and duplicate timestamps
straddling a batch boundary are dropped by the `ts >` mark forever, so the
distinct-timestamp hypothesis is needed for completeness. -/
theorem claim_C3_aggregation (parseURLHost : String → Option String) (C : List AggClick)
    (n : Nat) (k : String)
    (hN : (C.map AggClick.ts).Nodup)
    (hepoch : C.all (fun c => strLtb EPOCH_TS c.ts) = true)
    (hn : C.length ≤ n) :
    ((runAggregation parseURLHost C)^[n] initAggState).rollup_daily_workspace k
        = C.countP (fun c => decide (wsRow c = k)) ∧
    ((runAggregation parseURLHost C)^[n] initAggState).rollup_daily_link k
        = C.countP (fun c => decide (linkRow c = k)) ∧
    ((runAggregation parseURLHost C)^[n] initAggState).rollup_referrer_daily k
        = C.countP (fun c => decide (refRow parseURLHost c = k)) ∧
    ((runAggregation parseURLHost C)^[n] initAggState).rollup_country_daily k
        = C.countP (fun c => decide (countryRow c = k)) ∧
    ((runAggregation parseURLHost C)^[n] initAggState).rollup_device_daily k
        = C.countP (fun c => decide (deviceRow c = k)) ∧
    runAggregation parseURLHost C ((runAggregation parseURLHost C)^[n] initAggState)
      = (runAggregation parseURLHost C)^[n] initAggState := by
  have hep : ∀ c ∈ C, strLtb EPOCH_TS c.ts = true := by
    rw [List.all_eq_true] at hepoch
    intro c hc
    simpa using hepoch c hc
  have hinv : aggInv parseURLHost C ((runAggregation parseURLHost C)^[n] initAggState) :=
    aggInv_iterate parseURLHost C initAggState hN n (aggInv_init parseURLHost C hep)
  have hpend : C.countP (fun c =>
      strLtb ((runAggregation parseURLHost C)^[n] initAggState).last_processed_ts c.ts) = 0 := by
    have h1 := pending_iterate parseURLHost C initAggState hN n
    have h2 : C.countP (fun c => strLtb initAggState.last_processed_ts c.ts) ≤ C.length :=
      List.countP_le_length _
    omega
  have hall : ∀ c ∈ C,
      strLtb ((runAggregation parseURLHost C)^[n] initAggState).last_processed_ts c.ts = false := by
    intro c hc
    have := List.countP_eq_zero.mp hpend c hc
    simpa using this
  obtain ⟨h1, h2, h3, h4, h5⟩ := hinv
  refine ⟨?_, ?_, ?_, ?_, ?_, run_noop parseURLHost C _ hpend⟩
  · rw [h1 k]
    apply countP_congr_mem
    intro c hc
    rw [hall c hc]
    simp
  · rw [h2 k]
    apply countP_congr_mem
    intro c hc
    rw [hall c hc]
    simp
  · rw [h3 k]
    apply countP_congr_mem
    intro c hc
    rw [hall c hc]
    simp
  · rw [h4 k]
    apply countP_congr_mem
    intro c hc
    rw [hall c hc]
    simp
  · rw [h5 k]
    apply countP_congr_mem
    intro c hc
    rw [hall c hc]
    simp

/-- C3 witness: two clicks in distinct workspaces/days, aggregated in two
runs. -/
theorem claim_C3_aggregation_witness :
    (([⟨"id1", "2026-03-01T00:00:00.000Z", "W1", "L1", some "https://a.test/p", none, some "mobile"⟩,
       ⟨"id2", "2026-03-02T00:00:00.000Z", "W2", "L2", none, some "US", none⟩]
        : List AggClick).map AggClick.ts).Nodup ∧
    ([⟨"id1", "2026-03-01T00:00:00.000Z", "W1", "L1", some "https://a.test/p", none, some "mobile"⟩,
      ⟨"id2", "2026-03-02T00:00:00.000Z", "W2", "L2", none, some "US", none⟩]
        : List AggClick).all (fun c => strLtb EPOCH_TS c.ts) = true ∧
    ([⟨"id1", "2026-03-01T00:00:00.000Z", "W1", "L1", some "https://a.test/p", none, some "mobile"⟩,
      ⟨"id2", "2026-03-02T00:00:00.000Z", "W2", "L2", none, some "US", none⟩]
        : List AggClick).length ≤ 2 ∧
    (((runAggregation (fun _ => some "a.test")
        [⟨"id1", "2026-03-01T00:00:00.000Z", "W1", "L1", some "https://a.test/p", none, some "mobile"⟩,
         ⟨"id2", "2026-03-02T00:00:00.000Z", "W2", "L2", none, some "US", none⟩])^[2]
        initAggState).rollup_daily_workspace "W1|2026-03-01"
      = ([⟨"id1", "2026-03-01T00:00:00.000Z", "W1", "L1", some "https://a.test/p", none, some "mobile"⟩,
          ⟨"id2", "2026-03-02T00:00:00.000Z", "W2", "L2", none, some "US", none⟩]
          : List AggClick).countP (fun c => decide (wsRow c = "W1|2026-03-01"))) ∧
    (runAggregation (fun _ => some "a.test")
        [⟨"id1", "2026-03-01T00:00:00.000Z", "W1", "L1", some "https://a.test/p", none, some "mobile"⟩,
         ⟨"id2", "2026-03-02T00:00:00.000Z", "W2", "L2", none, some "US", none⟩]
        ((runAggregation (fun _ => some "a.test")
          [⟨"id1", "2026-03-01T00:00:00.000Z", "W1", "L1", some "https://a.test/p", none, some "mobile"⟩,
           ⟨"id2", "2026-03-02T00:00:00.000Z", "W2", "L2", none, some "US", none⟩])^[2]
          initAggState)
      = (runAggregation (fun _ => some "a.test")
          [⟨"id1", "2026-03-01T00:00:00.000Z", "W1", "L1", some "https://a.test/p", none, some "mobile"⟩,
           ⟨"id2", "2026-03-02T00:00:00.000Z", "W2", "L2", none, some "US", none⟩])^[2]
          initAggState) := by
  have h := claim_C3_aggregation (fun _ => some "a.test")
    [⟨"id1", "2026-03-01T00:00:00.000Z", "W1", "L1", some "https://a.test/p", none, some "mobile"⟩,
     ⟨"id2", "2026-03-02T00:00:00.000Z", "W2", "L2", none, some "US", none⟩]
    2 "W1|2026-03-01" (by decide) (by decide) (by decide)
  exact ⟨by decide, by decide, by decide, h.1, h.2.2.2.2.2⟩

set_option maxRecDepth 8192 in
/-- C3 counterexample: a single click whose referrer is an unparseable
URL containing a pipe (`http://a|b`). Its bucket key is
`w|2026-01-01|http://a|b`, but the upsert loop's
`const [workspaceId, date, referrer] = key.split('|')` re-binding
truncates the referrer to `http://a`: after one run (which processes the
click — nothing is left above the mark), the `rollup_referrer_daily` row
for the click's bucket key holds 0 while the row `w|2026-01-01|http://a`
— whose bucket key matches no click — holds 1, refuting the claimed
per-bucket equality. -/
theorem claim_C3_counterexample :
    refKey (fun _ => none) pipeClick = "w|2026-01-01|http://a|b" ∧
    (runAggregation (fun _ => none) [pipeClick] initAggState).rollup_referrer_daily
        "w|2026-01-01|http://a|b" = 0 ∧
    [pipeClick].countP
        (fun c => decide (refKey (fun _ => none) c = "w|2026-01-01|http://a|b")) = 1 ∧
    (runAggregation (fun _ => none) [pipeClick] initAggState).rollup_referrer_daily
        "w|2026-01-01|http://a" = 1 ∧
    [pipeClick].countP
        (fun c => decide (refKey (fun _ => none) c = "w|2026-01-01|http://a")) = 0 ∧
    [pipeClick].countP (fun c =>
        strLtb (runAggregation (fun _ => none) [pipeClick] initAggState).last_processed_ts
          c.ts) = 0 := by
  decide

/-- C7 (amended): a single invocation of the Aggregator processes exactly
one batch — `min(BATCH_SIZE, pending)` rows — and does not loop. When at
most `BATCH_SIZE` clicks are pending (here: all of `C`, above the epoch
mark, pairwise-distinct timestamps), that single invocation rolls up
every pending click — each of the five tables' rows, keyed as the upsert
loops write them after the `key.split('|')` re-binding, equals the count
of matching clicks — and leaves nothing above the new mark; with more
than `BATCH_SIZE` pending clicks, the remainder is left for later
invocations (see the counterexample). -/
theorem claim_C7_single_batch (parseURLHost : String → Option String) (C : List AggClick)
    (k : String)
    (hN : (C.map AggClick.ts).Nodup)
    (hepoch : C.all (fun c => strLtb EPOCH_TS c.ts) = true)
    (hsmall : C.length ≤ BATCH_SIZE) :
    (fetchBatch C EPOCH_TS).length
        = min BATCH_SIZE (C.countP (fun c => strLtb EPOCH_TS c.ts)) ∧
    (runAggregation parseURLHost C initAggState).rollup_daily_workspace k
        = C.countP (fun c => decide (wsRow c = k)) ∧
    (runAggregation parseURLHost C initAggState).rollup_daily_link k
        = C.countP (fun c => decide (linkRow c = k)) ∧
    (runAggregation parseURLHost C initAggState).rollup_referrer_daily k
        = C.countP (fun c => decide (refRow parseURLHost c = k)) ∧
    (runAggregation parseURLHost C initAggState).rollup_country_daily k
        = C.countP (fun c => decide (countryRow c = k)) ∧
    (runAggregation parseURLHost C initAggState).rollup_device_daily k
        = C.countP (fun c => decide (deviceRow c = k)) ∧
    C.countP (fun c =>
      strLtb (runAggregation parseURLHost C initAggState).last_processed_ts c.ts) = 0 := by
  have hep : ∀ c ∈ C, strLtb EPOCH_TS c.ts = true := by
    rw [List.all_eq_true] at hepoch
    intro c hc
    simpa using hepoch c hc
  have hpend0 : C.countP (fun c => strLtb EPOCH_TS c.ts) = C.length := by
    have := countP_congr_mem (l := C)
      (p := fun c => strLtb EPOCH_TS c.ts) (q := fun _ => true) (fun c hc => by simp [hep c hc])
    simpa using this
  have hpend : C.countP (fun c =>
      strLtb (runAggregation parseURLHost C initAggState).last_processed_ts c.ts) = 0 := by
    have h1 := pending_after_run parseURLHost C initAggState hN
    have h2 := fetchBatch_length C EPOCH_TS
    have hinit : initAggState.last_processed_ts = EPOCH_TS := rfl
    rw [hinit] at h1
    rw [h1, h2, hpend0]
    omega
  have hall : ∀ c ∈ C,
      strLtb (runAggregation parseURLHost C initAggState).last_processed_ts c.ts = false := by
    intro c hc
    have := List.countP_eq_zero.mp hpend c hc
    simpa using this
  have hinv : aggInv parseURLHost C (runAggregation parseURLHost C initAggState) :=
    aggInv_step parseURLHost C initAggState hN (aggInv_init parseURLHost C hep)
  obtain ⟨h1, h2, h3, h4, h5⟩ := hinv
  refine ⟨fetchBatch_length C EPOCH_TS, ?_, ?_, ?_, ?_, ?_, hpend⟩
  · rw [h1 k]
    apply countP_congr_mem
    intro c hc
    rw [hall c hc]
    simp
  · rw [h2 k]
    apply countP_congr_mem
    intro c hc
    rw [hall c hc]
    simp
  · rw [h3 k]
    apply countP_congr_mem
    intro c hc
    rw [hall c hc]
    simp
  · rw [h4 k]
    apply countP_congr_mem
    intro c hc
    rw [hall c hc]
    simp
  · rw [h5 k]
    apply countP_congr_mem
    intro c hc
    rw [hall c hc]
    simp

/-- C7 witness: two clicks, one invocation suffices. -/
theorem claim_C7_single_batch_witness :
    (([⟨"id1", "2026-03-01T00:00:00.000Z", "W1", "L1", none, none, none⟩,
       ⟨"id2", "2026-03-02T00:00:00.000Z", "W1", "L2", none, none, none⟩]
        : List AggClick).map AggClick.ts).Nodup ∧
    ([⟨"id1", "2026-03-01T00:00:00.000Z", "W1", "L1", none, none, none⟩,
      ⟨"id2", "2026-03-02T00:00:00.000Z", "W1", "L2", none, none, none⟩]
        : List AggClick).length ≤ BATCH_SIZE ∧
    (fetchBatch
        [⟨"id1", "2026-03-01T00:00:00.000Z", "W1", "L1", none, none, none⟩,
         ⟨"id2", "2026-03-02T00:00:00.000Z", "W1", "L2", none, none, none⟩] EPOCH_TS).length
      = min BATCH_SIZE
          (([⟨"id1", "2026-03-01T00:00:00.000Z", "W1", "L1", none, none, none⟩,
             ⟨"id2", "2026-03-02T00:00:00.000Z", "W1", "L2", none, none, none⟩]
            : List AggClick).countP (fun c => strLtb EPOCH_TS c.ts)) ∧
    (runAggregation (fun _ => none)
        [⟨"id1", "2026-03-01T00:00:00.000Z", "W1", "L1", none, none, none⟩,
         ⟨"id2", "2026-03-02T00:00:00.000Z", "W1", "L2", none, none, none⟩]
        initAggState).rollup_daily_link "L1|2026-03-01"
      = ([⟨"id1", "2026-03-01T00:00:00.000Z", "W1", "L1", none, none, none⟩,
          ⟨"id2", "2026-03-02T00:00:00.000Z", "W1", "L2", none, none, none⟩]
          : List AggClick).countP (fun c => decide (linkRow c = "L1|2026-03-01")) ∧
    ([⟨"id1", "2026-03-01T00:00:00.000Z", "W1", "L1", none, none, none⟩,
      ⟨"id2", "2026-03-02T00:00:00.000Z", "W1", "L2", none, none, none⟩]
        : List AggClick).countP (fun c =>
        strLtb (runAggregation (fun _ => none)
          [⟨"id1", "2026-03-01T00:00:00.000Z", "W1", "L1", none, none, none⟩,
           ⟨"id2", "2026-03-02T00:00:00.000Z", "W1", "L2", none, none, none⟩]
          initAggState).last_processed_ts c.ts) = 0 := by
  have h := claim_C7_single_batch (fun _ => none)
    [⟨"id1", "2026-03-01T00:00:00.000Z", "W1", "L1", none, none, none⟩,
     ⟨"id2", "2026-03-02T00:00:00.000Z", "W1", "L2", none, none, none⟩]
    "L1|2026-03-01" (by decide) (by decide) (by decide)
  exact ⟨by decide, by decide, h.1, h.2.2.1, h.2.2.2.2.2.2⟩

theorem strLtb_head_lt (x y : Char) (u v : List Char) {a b : String}
    (h1 : a.data = x :: u) (h2 : b.data = y :: v) (h : x < y) :
    strLtb a b = true := by
  rw [strLtb, h1, h2]
  unfold listLtb
  rw [if_pos h]

theorem cexClick_ts_data (i : Nat) :
    (cexClick i).ts.data = '2' :: ("026-01-01T".data ++ (toString (1000 + i)).data) := by
  show ("2026-01-01T" ++ toString (1000 + i)).data = _
  rw [String.data_append]
  rfl

theorem cex_ts_above_epoch (i : Nat) : strLtb EPOCH_TS (cexClick i).ts = true :=
  strLtb_head_lt '1' '2' "970-01-01T00:00:00.000Z".data
    ("026-01-01T".data ++ (toString (1000 + i)).data) rfl (cexClick_ts_data i) (by decide)

theorem cex_wsKey (i : Nat) : wsKey (cexClick i) = "w|2026-01-01" := by
  unfold wsKey clickDate cexClick
  simp only []
  have htake : ("2026-01-01T" ++ toString (1000 + i)).take 10 = "2026-01-01" := by
    apply String.ext
    rw [String.data_take, String.data_append,
      List.take_append_of_le_length (by decide)]
    rfl
  rw [htake]
  rfl

theorem cexClicks_mem {c : AggClick} (hc : c ∈ cexClicks) : ∃ i, c = cexClick i := by
  unfold cexClicks at hc
  obtain ⟨i, _, hci⟩ := List.mem_map.mp hc
  exact ⟨i, hci.symm⟩

theorem cex_wsRow (i : Nat) : wsRow (cexClick i) = "w|2026-01-01" := by
  unfold wsRow
  rw [cex_wsKey]
  rfl

theorem runAgg_ws_proj {parseURLHost : String → Option String} {C : List AggClick}
    {s : AggState} (h : ¬ (fetchBatch C s.last_processed_ts).isEmpty = true) (k : String) :
    (runAggregation parseURLHost C s).rollup_daily_workspace k
      = s.rollup_daily_workspace k + tally wsRow (fetchBatch C s.last_processed_ts) k := by
  rw [runAggregation_nonempty h]

theorem initAggState_ws (k : String) : initAggState.rollup_daily_workspace k = 0 := rfl

theorem initAggState_ts : initAggState.last_processed_ts = EPOCH_TS := rfl

/-- C7 counterexample: 1,001 pending clicks, all in the same
workspace-day bucket. A single invocation fetches one batch of
`BATCH_SIZE = 1000` rows and stops — it does not repeat until a short
batch — so the workspace-day rollup holds 1000 after one invocation
while 1,001 clicks lie above the initial high-water mark. -/
theorem claim_C7_counterexample :
    cexClicks.length = 1001 ∧
    (fetchBatch cexClicks EPOCH_TS).length = 1000 ∧
    (runAggregation (fun _ => none) cexClicks initAggState).rollup_daily_workspace
        "w|2026-01-01" = 1000 ∧
    cexClicks.countP (fun c => decide (wsKey c = "w|2026-01-01")) = 1001 ∧
    cexClicks.countP (fun c => strLtb EPOCH_TS c.ts) = 1001 := by
  have hlen : cexClicks.length = 1001 := by
    unfold cexClicks
    rw [List.length_map, List.length_range]
  have hpend : cexClicks.countP (fun c => strLtb EPOCH_TS c.ts) = 1001 := by
    have h : cexClicks.countP (fun c => strLtb EPOCH_TS c.ts) = cexClicks.length :=
      List.countP_eq_length.mpr (fun c hc => by
        obtain ⟨i, rfl⟩ := cexClicks_mem hc
        exact cex_ts_above_epoch i)
    rw [h]
    exact hlen
  have hkey : ∀ c ∈ cexClicks, wsKey c = "w|2026-01-01" := by
    intro c hc
    obtain ⟨i, rfl⟩ := cexClicks_mem hc
    exact cex_wsKey i
  have hkeyRow : ∀ c ∈ cexClicks, wsRow c = "w|2026-01-01" := by
    intro c hc
    obtain ⟨i, rfl⟩ := cexClicks_mem hc
    exact cex_wsRow i
  have hcnt : cexClicks.countP (fun c => decide (wsKey c = "w|2026-01-01")) = 1001 := by
    have h : cexClicks.countP (fun c => decide (wsKey c = "w|2026-01-01")) = cexClicks.length :=
      List.countP_eq_length.mpr (fun c hc => by simp [hkey c hc])
    rw [h]
    exact hlen
  have hfetch : (fetchBatch cexClicks EPOCH_TS).length = 1000 := by
    rw [fetchBatch_length, hpend]
    unfold BATCH_SIZE
    omega
  have hne : ¬ (fetchBatch cexClicks EPOCH_TS).isEmpty = true := by
    rw [List.isEmpty_iff_length_eq_zero, hfetch]
    omega
  have hne2 : ¬ (fetchBatch cexClicks initAggState.last_processed_ts).isEmpty = true := by
    rw [initAggState_ts]
    exact hne
  have hsub : ∀ c ∈ fetchBatch cexClicks EPOCH_TS, c ∈ cexClicks := by
    intro c hc
    unfold fetchBatch at hc
    have hP := List.mem_of_mem_take hc
    have hF := (List.perm_insertionSort tsLe _).mem_iff.mp hP
    exact List.mem_of_mem_filter hF
  have hroll : (runAggregation (fun _ => none) cexClicks initAggState).rollup_daily_workspace
      "w|2026-01-01" = 1000 := by
    rw [runAgg_ws_proj hne2, initAggState_ws, Nat.zero_add, initAggState_ts, tally_eq_countP]
    have h : (fetchBatch cexClicks EPOCH_TS).countP
        (fun c => decide (wsRow c = "w|2026-01-01")) = (fetchBatch cexClicks EPOCH_TS).length :=
      List.countP_eq_length.mpr (fun c hc => by simp [hkeyRow c (hsub c hc)])
    rw [h]
    exact hfetch
  exact ⟨hlen, hfetch, hroll, hcnt, hpend⟩

end Torium
